import Mathlib

/-!
# JsonAsAsset material importer: `IMaterialImporter::Import`

A shallow embedding of
`Source/JsonAsAsset/Private/Importers/Types/Materials/MaterialImporter.cpp`
(the build with `ENGINE_UE5` defined) and theorems about the graph it builds.

Conventions of the embedding.

* A pointer to a material expression is the position of that expression in the
  material's expression collection (`Expressions`); every expression created by
  `Import` is added to the collection, so positions are creation order.
* A null pointer is `none`.  Dereferencing one ends the run: `Import` then
  yields `none` instead of a result.
* JSON numbers and C++ `float`s are rationals: the importer only copies them.
* Layout coordinates (`int32 x, y`) are unbounded integers; they are cosmetic.
* Calls into the engine whose code is outside this file of the repository are
  fields of `Engine`; the theorems hold for every `Engine`.
-/

namespace JsonAsAsset

/-! ## JSON documents -/

/-- The JSON value tree (`FJsonValue`). -/
inductive FJsonValue where
  | Null
  | Boolean (Value : Bool)
  | Number (Value : ℚ)
  | String (Value : String)
  | Array (Value : List FJsonValue)
  | Object (Value : List (String × FJsonValue))

/-- A JSON object (`FJsonObject`): its fields, looked up by name. -/
abbrev FJsonObject := List (String × FJsonValue)

/-- The field stored under a name, `FJsonObject::TryGetField`. -/
def TryGetField (o : FJsonObject) (FieldName : String) : Option FJsonValue :=
  (o.find? (fun f => f.1 == FieldName)).map (fun f => f.2)

/-- Test for the presence of a field, `FJsonObject::HasField`. -/
def HasField (o : FJsonObject) (FieldName : String) : Bool :=
  (TryGetField o FieldName).isSome

/-- Removal of a field, `FJsonObject::RemoveField`. -/
def RemoveField (o : FJsonObject) (FieldName : String) : FJsonObject :=
  o.filter (fun f => !(f.1 == FieldName))

/-- The object held by a value, `FJsonValue::TryGetObject`. -/
def TryGetObject : FJsonValue → Option FJsonObject
  | .Object o => some o
  | _ => none

/-- The array held by a value, `FJsonValue::TryGetArray`. -/
def TryGetArray : FJsonValue → Option (List FJsonValue)
  | .Array a => some a
  | _ => none

/-- The object of a value, `FJsonValue::AsObject`: the empty object when the value is not one. -/
def AsObject (v : FJsonValue) : FJsonObject :=
  (TryGetObject v).getD []

/-- The array of a value, `FJsonValue::AsArray`: the empty array when the value is not one. -/
def AsArray (v : FJsonValue) : List FJsonValue :=
  (TryGetArray v).getD []

/-- Null test, `FJsonValue::IsNull`. -/
def IsNull : FJsonValue → Bool
  | .Null => true
  | _ => false

/-- Typed presence test `HasTypedField<EJson::Object>`. -/
def HasTypedField_Object (o : FJsonObject) (FieldName : String) : Bool :=
  match TryGetField o FieldName with
  | some (.Object _) => true
  | _ => false

/-- Typed presence test `HasTypedField<EJson::Array>`. -/
def HasTypedField_Array (o : FJsonObject) (FieldName : String) : Bool :=
  match TryGetField o FieldName with
  | some (.Array _) => true
  | _ => false

/-- Object field access, `FJsonObject::GetObjectField`. -/
def GetObjectField (o : FJsonObject) (FieldName : String) : FJsonObject :=
  match TryGetField o FieldName with
  | some v => AsObject v
  | none => []

/-- Array field access, `FJsonObject::GetArrayField`. -/
def GetArrayField (o : FJsonObject) (FieldName : String) : List FJsonValue :=
  match TryGetField o FieldName with
  | some v => AsArray v
  | none => []

/-- Optional object field, `FJsonObject::TryGetObjectField`. -/
def TryGetObjectField (o : FJsonObject) (FieldName : String) : Option FJsonObject :=
  (TryGetField o FieldName).bind TryGetObject

/-- Optional array field, `FJsonObject::TryGetArrayField`. -/
def TryGetArrayField (o : FJsonObject) (FieldName : String) : Option (List FJsonValue) :=
  (TryGetField o FieldName).bind TryGetArray

/-- Index test of `TArray::IsValidIndex` on a signed index. -/
def IsValidIndex {α : Type} (a : List α) (Index : Int) : Bool :=
  decide (0 ≤ Index) && decide (Index < (a.length : Int))

/-! ## The material and its expression graph -/

abbrev FName := String

/-- Attribute identifier handed out by `FMaterialAttributeDefinitionMap::GetID`. -/
abbrev FGuid := Nat

/-- Handle of a loaded texture asset. -/
abbrev UTexture := String

/-- The material domains; `Other` stands for every enumerator the importer does not name. -/
inductive EMaterialDomain where
  | MD_Surface
  | MD_DeferredDecal
  | MD_LightFunction
  | MD_Volume
  | MD_PostProcess
  | MD_UI
  | Other (tag : Nat)
deriving DecidableEq

/-- The root output slots the importer touches. -/
inductive EMaterialProperty where
  | MP_EmissiveColor
  | MP_BaseColor
  | MP_WorldPositionOffset
  | MP_MaterialAttributes
deriving DecidableEq

/-- Bit position of the unlit shading model in the shading-model bitset. -/
def MSM_Unlit : Nat := 0

/-- Membership test of the shading-model bitset, `FMaterialShadingModelField::HasShadingModel`. -/
def HasShadingModel (ShadingModelField : Nat) (Model : Nat) : Bool :=
  ShadingModelField.testBit Model

/-- Store into the 16-bit shading-model bitset, `SetShadingModelField`. -/
def SetShadingModelField (Value : Int) : Nat :=
  (Value % 2 ^ 16).toNat

/-- An input pin (`FExpressionInput`); a fresh one is unconnected. -/
structure FExpressionInput where
  Expression : Option Nat := none
  OutputIndex : Nat := 0
  InputName : FName := ""
deriving DecidableEq

/-- Pin connection, `FExpressionInput::Connect`. -/
def FExpressionInput.Connect (Input : FExpressionInput) (InOutputIndex : Nat) (InExpression : Nat) :
    FExpressionInput :=
  { Input with Expression := some InExpression, OutputIndex := InOutputIndex }

structure FLinearColor where
  R : ℚ
  G : ℚ
  B : ℚ
  A : ℚ
deriving DecidableEq

structure UMaterialExpressionSetMaterialAttributes where
  MaterialExpressionEditorX : Int
  MaterialExpressionEditorY : Int
  AttributeSetTypes : List FGuid
  Inputs : List FExpressionInput
deriving DecidableEq

structure UMaterialExpressionClamp where
  MaterialExpressionEditorX : Int
  MaterialExpressionEditorY : Int
  MinDefault : ℚ
  MaxDefault : ℚ
  Input : FExpressionInput := {}
deriving DecidableEq

structure UMaterialExpressionScalarParameter where
  ParameterName : FName
  MaterialExpressionEditorX : Int
  MaterialExpressionEditorY : Int
  DefaultValue : ℚ
deriving DecidableEq

structure UMaterialExpressionVectorParameter where
  ParameterName : FName
  MaterialExpressionEditorX : Int
  MaterialExpressionEditorY : Int
  DefaultValue : FLinearColor
deriving DecidableEq

structure UMaterialExpressionTextureSampleParameter2D where
  ParameterName : FName
  MaterialExpressionEditorX : Int
  MaterialExpressionEditorY : Int
  Texture : Option UTexture
  SamplerType : Nat
deriving DecidableEq

structure UMaterialExpressionConstant where
  MaterialExpressionEditorX : Int
  MaterialExpressionEditorY : Int
  R : ℚ
deriving DecidableEq

structure UMaterialExpressionStaticSwitchParameter where
  A : FExpressionInput := {}
  B : FExpressionInput := {}
  ParameterName : FName
  MaterialExpressionEditorX : Int
  MaterialExpressionEditorY : Int
  DefaultValue : Bool
deriving DecidableEq

structure UMaterialExpressionAdd where
  MaterialExpressionEditorX : Int
  MaterialExpressionEditorY : Int
  A : FExpressionInput := {}
  B : FExpressionInput := {}
deriving DecidableEq

/-- The node kinds `Import` creates; `Other` is a node of an authoritative graph,
built by the node passes that live elsewhere in the repository. -/
inductive UMaterialExpression where
  | SetMaterialAttributes (e : UMaterialExpressionSetMaterialAttributes)
  | Clamp (e : UMaterialExpressionClamp)
  | ScalarParameter (e : UMaterialExpressionScalarParameter)
  | VectorParameter (e : UMaterialExpressionVectorParameter)
  | TextureSampleParameter2D (e : UMaterialExpressionTextureSampleParameter2D)
  | Constant (e : UMaterialExpressionConstant)
  | StaticSwitchParameter (e : UMaterialExpressionStaticSwitchParameter)
  | Add (e : UMaterialExpressionAdd)
  | Other (Name : FName)
deriving DecidableEq

structure FParameterGroupData where
  GroupName : String
  GroupSortPriority : Int
deriving DecidableEq

/-- Number of elements of the fixed-size array `CustomizedUVs`. -/
def NumCustomizedUVs : Nat := 8

/-- The material together with its editor-only data: the fields `Import` reads or writes. -/
structure UMaterial where
  MaterialDomain : EMaterialDomain
  bUseMaterialAttributes : Bool
  ShadingModels : Nat
  Expressions : List UMaterialExpression
  EmissiveColor : FExpressionInput
  BaseColor : FExpressionInput
  WorldPositionOffset : FExpressionInput
  MaterialAttributes : FExpressionInput
  CustomizedUVs : List FExpressionInput
  ParameterGroupData : List FParameterGroupData
deriving DecidableEq

/-- The root input of a property, `UMaterial::GetExpressionInputForProperty`, read through the pointer. -/
def UMaterial.GetExpressionInputForProperty (Material : UMaterial) : EMaterialProperty → FExpressionInput
  | .MP_EmissiveColor => Material.EmissiveColor
  | .MP_BaseColor => Material.BaseColor
  | .MP_WorldPositionOffset => Material.WorldPositionOffset
  | .MP_MaterialAttributes => Material.MaterialAttributes

/-- Assignment `GetExpressionInputForProperty(Property)->Expression = Expression`. -/
def UMaterial.SetRootExpression (Material : UMaterial) (Property : EMaterialProperty) (Expression : Nat) :
    UMaterial :=
  match Property with
  | .MP_EmissiveColor =>
    { Material with EmissiveColor := { Material.EmissiveColor with Expression := some Expression } }
  | .MP_BaseColor =>
    { Material with BaseColor := { Material.BaseColor with Expression := some Expression } }
  | .MP_WorldPositionOffset =>
    { Material with WorldPositionOffset := { Material.WorldPositionOffset with Expression := some Expression } }
  | .MP_MaterialAttributes =>
    { Material with MaterialAttributes := { Material.MaterialAttributes with Expression := some Expression } }

/-- What the local `FExpressionInput* matInput` points at. -/
inductive MatInputPtr where
  | Root (Property : EMaterialProperty)
  | LastInputOf (setAttrNode : Nat)
deriving DecidableEq

/-- Calls that leave the importer, in the order they are made. -/
inductive Event where
  | SpawnMaterialDataMissingNotification
  | LoadObject (Object : FJsonObject)
  | OnAssetCreation
  | DeserializeObjectProperties
  | UpdateCachedExpressionData
  | ForceRecompileForRendering
  | PostEditChange
  | MarkPackageDirty
  | PreEditChange
  | SavePackage
  | Save

/-- The events that persist the result. -/
def Event.isSave : Event → Bool
  | .SavePackage => true
  | .Save => true
  | _ => false

/-- The engine and the rest of the plugin, as far as `Import` calls into them. -/
structure Engine where
  /-- `FJsonValue::TryGetString`. -/
  TryGetString : FJsonValue → Option String
  /-- `FJsonValue::TryGetNumber(int32&)`. -/
  TryGetNumber_int32 : FJsonValue → Option Int
  /-- `FJsonValue::TryGetNumber(float&)`. -/
  TryGetNumber_float : FJsonValue → Option ℚ
  /-- `FJsonValue::TryGetBool`. -/
  TryGetBool : FJsonValue → Option Bool
  /-- `FMaterialAttributeDefinitionMap::GetID`. -/
  GetID : EMaterialProperty → FGuid
  /-- `FMaterialAttributeDefinitionMap::GetDisplayNameForMaterial(...).ToString()`. -/
  GetDisplayNameForMaterial : FGuid → UMaterial → String
  /-- A freshly constructed `UMaterialExpressionSetMaterialAttributes`. -/
  NewSetMaterialAttributes : UMaterialExpressionSetMaterialAttributes
  /-- `TSoftObjectPtr<UTexture>(FSoftObjectPath(AssetPathName, SubPathString)).LoadSynchronous()`. -/
  LoadSynchronous : String → String → Option UTexture
  /-- `UMaterialExpressionTextureBase::GetSamplerTypeForTexture`. -/
  GetSamplerTypeForTexture : Option UTexture → Nat
  /-- `IImporter::OnAssetCreation`. -/
  OnAssetCreation : UMaterial → Bool
  /-- `GetObjectSerializer()->DeserializeObjectProperties` on the material. -/
  DeserializeObjectProperties : FJsonObject → UMaterial → UMaterial
  /-- `GetObjectSerializer()->DeserializeObjectProperties` on the editor-only data. -/
  DeserializeEditorOnlyData : FJsonObject → UMaterial → UMaterial
  /-- `IMaterialGraph::PropagateExpressions` (pass 2). -/
  PropagateExpressions : List (FName × Nat) → UMaterial → UMaterial
  /-- `IMaterialGraph::GetExpressionName`. -/
  GetExpressionName : FJsonObject → FName
  /-- `IMaterialGraph::PopulateExpressionInput`. -/
  PopulateExpressionInput : FJsonObject → Option Nat → FExpressionInput
  /-- A default-constructed `FParameterGroupData`. -/
  NewParameterGroupData : FParameterGroupData

/-- String field access, `FJsonObject::TryGetStringField`. -/
def TryGetStringField (E : Engine) (o : FJsonObject) (FieldName : String) : Option String :=
  (TryGetField o FieldName).bind E.TryGetString

/-- Integer field access, `FJsonObject::TryGetNumberField(int32&)`. -/
def TryGetNumberField_int32 (E : Engine) (o : FJsonObject) (FieldName : String) : Option Int :=
  (TryGetField o FieldName).bind E.TryGetNumber_int32

/-- Float field access, `FJsonObject::TryGetNumberField(float&)`. -/
def TryGetNumberField_float (E : Engine) (o : FJsonObject) (FieldName : String) : Option ℚ :=
  (TryGetField o FieldName).bind E.TryGetNumber_float

/-- `UJsonAsAssetSettings::AssetSettings.MaterialImportSettings`. -/
structure MaterialImportSettings where
  bSkipResultNodeConnection : Bool

/-- What the importer holds when `Import` starts.  `Props` and `ExpressionContainer` are
what `FindMaterialData` and `ConstructExpressions` (pass 1) leave behind, and
`CachedExpressionData` is what `FindMaterialParameters` returns; those three functions are
defined elsewhere in the repository and only fill the registry. -/
structure ImporterState where
  AssetData : FJsonObject
  Props : FJsonObject
  ExpressionContainer : List (FName × Nat)
  CachedExpressionData : FJsonObject

/-! ## The Output Binder (fallback path, lines 59-129) -/

/-- The property whose attribute identifier is appended to the aggregation node:
the `switch` over `Material->MaterialDomain` in the `bUseMaterialAttributes` branch. -/
def SelectAttributeProperty (Material : UMaterial) : EMaterialProperty :=
  match Material.MaterialDomain with
  | .MD_Surface =>
    if HasShadingModel Material.ShadingModels MSM_Unlit then .MP_EmissiveColor
    else .MP_BaseColor
  | .MD_LightFunction => .MP_EmissiveColor
  | .MD_PostProcess => .MP_EmissiveColor
  | .MD_UI => .MP_EmissiveColor
  | .MD_DeferredDecal => .MP_WorldPositionOffset
  | .MD_Volume => .MP_BaseColor
  | _ => .MP_BaseColor

/-- The root property whose input becomes `matInput`: the `switch` over
`Material->MaterialDomain` in the branch for materials that do not use attributes. -/
def SelectInputProperty (Material : UMaterial) : EMaterialProperty :=
  match Material.MaterialDomain with
  | .MD_Surface =>
    if HasShadingModel Material.ShadingModels MSM_Unlit then .MP_EmissiveColor
    else .MP_BaseColor
  | .MD_LightFunction => .MP_EmissiveColor
  | .MD_PostProcess => .MP_EmissiveColor
  | .MD_UI => .MP_EmissiveColor
  | .MD_DeferredDecal => .MP_WorldPositionOffset
  | .MD_Volume => .MP_BaseColor
  | _ => .MP_BaseColor

/-- Update of the last element of an array through `TArray::Last()`. -/
def ModifyLast {α : Type} (f : α → α) : List α → List α
  | [] => []
  | [a] => [f a]
  | a :: b :: l => a :: ModifyLast f (b :: l)

/-- The `bUseMaterialAttributes` branch (lines 63-96): creates the aggregation node, binds it
to the `MP_MaterialAttributes` root input, appends the attribute identifier and one input, and
returns the material, the new `x` and `matInput`. -/
def BindMaterialAttributes (E : Engine) (Material : UMaterial) (x : Int) :
    UMaterial × Int × MatInputPtr :=
  let x := x - 16 * 8 * 2
  let setAttrNode := Material.Expressions.length
  let node : UMaterialExpressionSetMaterialAttributes :=
    { E.NewSetMaterialAttributes with MaterialExpressionEditorX := x, MaterialExpressionEditorY := 0 }
  let Bound := (Material.SetRootExpression .MP_MaterialAttributes setAttrNode)
  let AttributeID := E.GetID (SelectAttributeProperty Material)
  let node := { node with AttributeSetTypes := node.AttributeSetTypes ++ [AttributeID] }
  let node := { node with Inputs := node.Inputs ++ [({} : FExpressionInput)] }
  let InputName := E.GetDisplayNameForMaterial AttributeID
    { Bound with Expressions := Material.Expressions ++ [.SetMaterialAttributes node] }
  let node := { node with Inputs := ModifyLast (fun Input => { Input with InputName := InputName }) node.Inputs }
  ({ Bound with Expressions := Material.Expressions ++ [.SetMaterialAttributes node] }, x,
    .LastInputOf setAttrNode)

/-- Assignment `matInput->Expression = Expression`. -/
def AssignMatInput (Material : UMaterial) (matInput : MatInputPtr) (Expression : Nat) : UMaterial :=
  match matInput with
  | .Root Property => Material.SetRootExpression Property Expression
  | .LastInputOf setAttrNode =>
    match Material.Expressions[setAttrNode]? with
    | some (.SetMaterialAttributes e) =>
      let Inputs := ModifyLast (fun Input => { Input with Expression := some Expression }) e.Inputs
      let node := UMaterialExpression.SetMaterialAttributes { e with Inputs := Inputs }
      { Material with Expressions := Material.Expressions.set setAttrNode node }
    | _ => Material

/-- Lines 59-129: selects `matInput` (through the aggregation node when the material uses
attributes), creates the clamp and makes it the producer of `matInput`.  Returns the material,
`x`, the clamp and `matInput`. -/
def BindOutput (E : Engine) (Material : UMaterial) : UMaterial × Int × Nat × MatInputPtr :=
  let x : Int := 0
  let (Material, x, matInput) :=
    if Material.bUseMaterialAttributes then BindMaterialAttributes E Material x
    else (Material, x, MatInputPtr.Root (SelectInputProperty Material))
  let x := x - 16 * 8 * 2
  let clamp := Material.Expressions.length
  let Material := { Material with Expressions := Material.Expressions ++
    [.Clamp { MaterialExpressionEditorX := x + 16 * 4, MaterialExpressionEditorY := 0,
              MinDefault := 0, MaxDefault := 1 }] }
  (AssignMatInput Material matInput clamp, x, clamp, matInput)

/-! ## The Fallback Graph Synthesizer (lines 131-362) -/

/-- The locals of the parameter-recreation region together with the expression collection. -/
structure SynthState where
  Expressions : List UMaterialExpression
  lastAdd : Option Nat
  x : Int
  y : Int
  Events : List Event

/-- Append to the collection, `GetExpressionCollection().AddExpression`. -/
def AddExpression (st : SynthState) (e : UMaterialExpression) : SynthState :=
  { st with Expressions := st.Expressions ++ [e] }

/-- Statement `clamp->Input.Connect(0, newAdd)`. -/
def ConnectClampInput (Expressions : List UMaterialExpression) (clamp newAdd : Nat) :
    List UMaterialExpression :=
  match Expressions[clamp]? with
  | some (.Clamp e) => Expressions.set clamp (.Clamp { e with Input := e.Input.Connect 0 newAdd })
  | _ => Expressions

/-- Statement `lastAdd->B.Connect(0, newAdd)`. -/
def ConnectAddB (Expressions : List UMaterialExpression) (lastAdd newAdd : Nat) :
    List UMaterialExpression :=
  match Expressions[lastAdd]? with
  | some (.Add e) => Expressions.set lastAdd (.Add { e with B := e.B.Connect 0 newAdd })
  | _ => Expressions

/-- The merge block that ends every category body (lines 170-180, 227-237, 287-297, 344-354):
creates `newAdd`, feeds its `A` from `param`, connects it to the clamp or to `lastAdd`, and
makes it the new `lastAdd`. -/
def ChainAdd (clamp : Nat) (st : SynthState) (param : Nat) : SynthState :=
  let newAdd := st.Expressions.length
  let st := AddExpression st
    (.Add { MaterialExpressionEditorX := st.x + 16 * 8 * 2, MaterialExpressionEditorY := st.y,
            A := ({} : FExpressionInput).Connect 0 param })
  let Expressions :=
    match st.lastAdd with
    | none => ConnectClampInput st.Expressions clamp newAdd
    | some lastAdd => ConnectAddB st.Expressions lastAdd newAdd
  { st with Expressions := Expressions, lastAdd := some newAdd }

/-- The range-based `for` over `paramsPtr` with the counter `i` incremented at the end of the body. -/
def ForEach (body : Nat → FJsonValue → SynthState → SynthState) :
    Nat → List FJsonValue → SynthState → SynthState
  | _, [], st => st
  | i, paramVal :: rest, st => ForEach body (i + 1) rest (body i paramVal st)

/-- Body of the scalar loop (lines 153-183).  The access `paramValueIndexesPtr[i]` is inside
the array when the loop runs, the lengths being equal; outside it the entry is passed over. -/
def ScalarEntry (E : Engine) (clamp : Nat) (paramValueIndexesPtr paramValuesPtr : List FJsonValue)
    (i : Nat) (paramVal : FJsonValue) (st : SynthState) : SynthState :=
  let paramObj := AsObject paramVal
  let st1 :=
    match TryGetStringField E paramObj "Name" with
    | none => st
    | some paramName =>
      match (paramValueIndexesPtr[i]?).bind E.TryGetNumber_int32 with
      | none => st
      | some index =>
        if IsValidIndex paramValuesPtr (if index = -1 then (i : Int) else index) then
          match (paramValuesPtr[(if index = -1 then (i : Int) else index).toNat]?).bind
              E.TryGetNumber_float with
          | none => st
          | some value =>
            let param := st.Expressions.length
            let st := AddExpression st (.ScalarParameter
              { ParameterName := paramName, MaterialExpressionEditorX := st.x,
                MaterialExpressionEditorY := st.y, DefaultValue := value })
            ChainAdd clamp st param
        else st
  { st1 with y := st1.y + 16 * 6 }

/-- The scalar category (lines 138-186). -/
def ScalarCategory (E : Engine) (clamp : Nat) (CachedExpressionData : FJsonObject)
    (st : SynthState) : SynthState :=
  if HasTypedField_Object CachedExpressionData "RuntimeEntries"
      && HasTypedField_Array (GetObjectField CachedExpressionData "RuntimeEntries") "ParameterInfoSet"
      && HasTypedField_Array CachedExpressionData "ScalarPrimitiveDataIndexValues"
      && HasTypedField_Array CachedExpressionData "ScalarValues" then
    let paramsPtr := GetArrayField (GetObjectField CachedExpressionData "RuntimeEntries") "ParameterInfoSet"
    let paramValueIndexesPtr := GetArrayField CachedExpressionData "ScalarPrimitiveDataIndexValues"
    let paramValuesPtr := GetArrayField CachedExpressionData "ScalarValues"
    if paramsPtr.length = paramValueIndexesPtr.length ∧ paramsPtr.length = paramValuesPtr.length then
      let st := { st with y := st.y - 0, x := st.x - 16 * 8 * 3 }
      ForEach (ScalarEntry E clamp paramValueIndexesPtr paramValuesPtr) 0 paramsPtr st
    else st
  else st

/-- The colour of a vector value: its fields `R`, `G`, `B`, `A` read in that order. -/
def ReadLinearColor (E : Engine) (value : FJsonObject) : Option FLinearColor :=
  match TryGetNumberField_float E value "R" with
  | none => none
  | some r =>
    match TryGetNumberField_float E value "G" with
    | none => none
    | some g =>
      match TryGetNumberField_float E value "B" with
      | none => none
      | some b =>
        match TryGetNumberField_float E value "A" with
        | none => none
        | some a => some { R := r, G := g, B := b, A := a }

/-- Body of the vector loop (lines 205-240).  The access `paramValueIndexesPtr[i]` is inside
the array when the loop runs, the lengths being equal; outside it the entry is passed over. -/
def VectorEntry (E : Engine) (clamp : Nat) (paramValueIndexesPtr paramValuesPtr : List FJsonValue)
    (i : Nat) (paramVal : FJsonValue) (st : SynthState) : SynthState :=
  let paramObj := AsObject paramVal
  let st1 :=
    match TryGetStringField E paramObj "Name" with
    | none => st
    | some paramName =>
      match (paramValueIndexesPtr[i]?).bind E.TryGetNumber_int32 with
      | none => st
      | some index =>
        if IsValidIndex paramValuesPtr (if index = -1 then (i : Int) else index) then
          match ((paramValuesPtr[(if index = -1 then (i : Int) else index).toNat]?).bind
              TryGetObject).bind (ReadLinearColor E) with
          | none => st
          | some color =>
            let param := st.Expressions.length
            let st := AddExpression st (.VectorParameter
              { ParameterName := paramName, MaterialExpressionEditorX := st.x,
                MaterialExpressionEditorY := st.y, DefaultValue := color })
            ChainAdd clamp st param
        else st
  { st1 with y := st1.y + 16 * 13 }

/-- The vector category (lines 190-243). -/
def VectorCategory (E : Engine) (clamp : Nat) (CachedExpressionData : FJsonObject)
    (st : SynthState) : SynthState :=
  if HasTypedField_Object CachedExpressionData "RuntimeEntries[1]"
      && HasTypedField_Array (GetObjectField CachedExpressionData "RuntimeEntries[1]") "ParameterInfoSet"
      && HasTypedField_Array CachedExpressionData "VectorPrimitiveDataIndexValues"
      && HasTypedField_Array CachedExpressionData "VectorValues" then
    let paramsPtr := GetArrayField (GetObjectField CachedExpressionData "RuntimeEntries[1]") "ParameterInfoSet"
    let paramValueIndexesPtr := GetArrayField CachedExpressionData "VectorPrimitiveDataIndexValues"
    let paramValuesPtr := GetArrayField CachedExpressionData "VectorValues"
    if paramsPtr.length = paramValueIndexesPtr.length ∧ paramsPtr.length = paramValuesPtr.length then
      let st := { st with x := st.x - 16 * 8 * 4, y := 0 }
      ForEach (VectorEntry E clamp paramValueIndexesPtr paramValuesPtr) 0 paramsPtr st
    else st
  else st

/-- Body of the texture loop (lines 268-300). -/
def TextureEntry (E : Engine) (clamp : Nat) (paramValuesPtr : List FJsonValue)
    (i : Nat) (paramVal : FJsonValue) (st : SynthState) : SynthState :=
  let paramObj := AsObject paramVal
  let st1 :=
    match TryGetStringField E paramObj "Name" with
    | none => st
    | some paramName =>
      if IsValidIndex paramValuesPtr (i : Int) then
        match (paramValuesPtr[i]?).bind TryGetObject with
        | none => st
        | some textureValueObj =>
          match TryGetStringField E textureValueObj "AssetPathName" with
          | none => st
          | some textureAssetPath =>
            match TryGetStringField E textureValueObj "SubPathString" with
            | none => st
            | some textureSubPath =>
              let param := st.Expressions.length
              let tex := E.LoadSynchronous textureAssetPath textureSubPath
              let st := AddExpression st (.TextureSampleParameter2D
                { ParameterName := paramName, MaterialExpressionEditorX := st.x,
                  MaterialExpressionEditorY := st.y, Texture := tex,
                  SamplerType := E.GetSamplerTypeForTexture tex })
              ChainAdd clamp st param
      else st
  { st1 with y := st1.y + 16 * 8 * 2 }

/-- The eager load of `ReferencedTextures` (lines 260-266): one `LoadObject` call per element. -/
def LoadReferencedTextures (CachedExpressionData : FJsonObject) (st : SynthState) : SynthState :=
  if HasTypedField_Array CachedExpressionData "ReferencedTextures" then
    let Loads := (GetArrayField CachedExpressionData "ReferencedTextures").map
      (fun refedTexture => Event.LoadObject (AsObject refedTexture))
    { st with Events := st.Events ++ Loads }
  else st

/-- The texture category (lines 247-303). -/
def TextureCategory (E : Engine) (clamp : Nat) (CachedExpressionData : FJsonObject)
    (st : SynthState) : SynthState :=
  if HasTypedField_Object CachedExpressionData "RuntimeEntries[3]"
      && HasTypedField_Array (GetObjectField CachedExpressionData "RuntimeEntries[3]") "ParameterInfoSet"
      && HasTypedField_Array CachedExpressionData "TextureValues" then
    let paramsPtr := GetArrayField (GetObjectField CachedExpressionData "RuntimeEntries[3]") "ParameterInfoSet"
    let paramValuesPtr := GetArrayField CachedExpressionData "TextureValues"
    if paramsPtr.length = paramValuesPtr.length then
      let st := { st with x := st.x - 16 * 8 * 4, y := 0 }
      let st := LoadReferencedTextures CachedExpressionData st
      ForEach (TextureEntry E clamp paramValuesPtr) 0 paramsPtr st
    else st
  else st

/-- Body of the switch loop (lines 320-357). -/
def SwitchEntry (E : Engine) (clamp : Nat) (paramValuesPtr : List FJsonValue)
    (i : Nat) (paramVal : FJsonValue) (st : SynthState) : SynthState :=
  let paramObj := AsObject paramVal
  let st1 :=
    match TryGetStringField E paramObj "Name" with
    | none => st
    | some paramName =>
      if IsValidIndex paramValuesPtr (i : Int) then
        match (paramValuesPtr[i]?).bind E.TryGetBool with
        | none => st
        | some value =>
          let constVal := st.Expressions.length
          let st := AddExpression st (.Constant
            { MaterialExpressionEditorX := st.x, MaterialExpressionEditorY := st.y, R := 1 })
          let param := st.Expressions.length
          let st := AddExpression st (.StaticSwitchParameter
            { A := ({} : FExpressionInput).Connect 0 constVal,
              B := ({} : FExpressionInput).Connect 0 constVal,
              ParameterName := paramName, MaterialExpressionEditorX := st.x,
              MaterialExpressionEditorY := st.y, DefaultValue := value })
          ChainAdd clamp st param
      else st
  { st1 with y := st1.y + 16 * 9 }

/-- The switch category (lines 307-360). -/
def SwitchCategory (E : Engine) (clamp : Nat) (CachedExpressionData : FJsonObject)
    (st : SynthState) : SynthState :=
  if HasTypedField_Object CachedExpressionData "RuntimeEntries[7]"
      && HasTypedField_Array (GetObjectField CachedExpressionData "RuntimeEntries[7]") "ParameterInfoSet"
      && HasTypedField_Array CachedExpressionData "StaticSwitchValues" then
    let paramsPtr := GetArrayField (GetObjectField CachedExpressionData "RuntimeEntries[7]") "ParameterInfoSet"
    let paramValuesPtr := GetArrayField CachedExpressionData "StaticSwitchValues"
    if paramsPtr.length = paramValuesPtr.length then
      let st := { st with x := st.x - 16 * 8 * 4, y := 0 }
      ForEach (SwitchEntry E clamp paramValuesPtr) 0 paramsPtr st
    else st
  else st

/-- The parameter-recreation region (lines 135-362): the four categories in source order. -/
def ParamRecreation (E : Engine) (clamp : Nat) (CachedExpressionData : FJsonObject)
    (st : SynthState) : SynthState :=
  SwitchCategory E clamp CachedExpressionData
    (TextureCategory E clamp CachedExpressionData
      (VectorCategory E clamp CachedExpressionData
        (ScalarCategory E clamp CachedExpressionData st)))

/-- The block guarded by `!bSkipResultNodeConnection` in the fallback path (lines 59-362):
the Output Binder followed by the parameter recreation. -/
def SynthesizeFallback (E : Engine) (CachedExpressionData : FJsonObject) (Material : UMaterial)
    (Events : List Event) : UMaterial × List Event :=
  let (Material, x, clamp, _) := BindOutput E Material
  let st : SynthState :=
    { Expressions := Material.Expressions, lastAdd := none, x := x, y := 0, Events := Events }
  let st := ParamRecreation E clamp CachedExpressionData st
  ({ Material with Expressions := st.Expressions }, st.Events)

/-- Lines 49-56 and 455-467: the shading-model bitset read from `AssetData`. -/
def ReadShadingModels (E : Engine) (AssetData : FJsonObject) (Material : UMaterial) : UMaterial :=
  match TryGetObjectField AssetData "ShadingModels" with
  | none => Material
  | some ShadingModelsPtr =>
    match TryGetNumberField_int32 E ShadingModelsPtr "ShadingModelField" with
    | none => Material
    | some ShadingModelField =>
      { Material with ShadingModels := SetShadingModelField ShadingModelField }

/-- The material as it stands at line 365 of the fallback path, with the calls made so far. -/
def FallbackGraph (E : Engine) (Settings : MaterialImportSettings) (S : ImporterState)
    (Material : UMaterial) : UMaterial × List Event :=
  let Events := [Event.SpawnMaterialDataMissingNotification]
  let Material := ReadShadingModels E S.AssetData Material
  if !Settings.bSkipResultNodeConnection then
    SynthesizeFallback E S.CachedExpressionData Material Events
  else (Material, Events)

/-- What a run of `Import` that returns leaves behind: the returned flag, the material and the
calls made. -/
structure ImportResult where
  success : Bool
  Material : UMaterial
  Events : List Event

/-- The fallback path (lines 46-386). -/
def FallbackPath (E : Engine) (Settings : MaterialImportSettings) (S : ImporterState)
    (Material : UMaterial) : ImportResult :=
  let (Material, Events) := FallbackGraph E Settings S Material
  let Events := Events ++ [Event.OnAssetCreation]
  if !E.OnAssetCreation Material then
    { success := false, Material := Material, Events := Events }
  else
    let Material := E.DeserializeObjectProperties S.AssetData Material
    { success := true, Material := Material,
      Events := Events ++ [.DeserializeObjectProperties, .UpdateCachedExpressionData,
        .ForceRecompileForRendering, .PostEditChange, .MarkPackageDirty, .PreEditChange,
        .SavePackage] }

/-! ## The full-graph path (lines 388-485) -/

/-- The fields that must not reach the generic property path. -/
def IgnoredProperties : List String :=
  ["ParameterGroupData", "ExpressionCollection", "CustomizedUVs"]

/-- Lines 405-410: removal of the ignored fields through `RawConnectionData`.  That pointer is
a copy of the shared pointer `Props`, so the object the fields are removed from is the one
`Props` designates. -/
def RemoveIgnoredProperties (Props : FJsonObject) : FJsonObject :=
  IgnoredProperties.foldl
    (fun RawConnectionData Property =>
      if HasField RawConnectionData Property then RemoveField RawConnectionData Property
      else RawConnectionData)
    Props

/-- Registry membership, `FUObjectExportContainer::Contains`. -/
def Contains (ExpressionContainer : List (FName × Nat)) (Name : FName) : Bool :=
  ExpressionContainer.any (fun Export => Export.1 == Name)

/-- Registry lookup, `FUObjectExportContainer::Find`. -/
def Find (ExpressionContainer : List (FName × Nat)) (Name : FName) : Option Nat :=
  (ExpressionContainer.find? (fun Export => Export.1 == Name)).map (fun Export => Export.2)

/-- The loop over `CustomizedUVs` (lines 419-429).  A store past the end of the fixed-size
array ends the run (`none`). -/
def CustomizedUVsLoop (E : Engine) (ExpressionContainer : List (FName × Nat)) :
    Nat → List FJsonValue → List FExpressionInput → Option (List FExpressionInput)
  | _, [], CustomizedUVs => some CustomizedUVs
  | i, InputValue :: rest, CustomizedUVs =>
    let InputObject := AsObject InputValue
    let InputExpressionName := E.GetExpressionName InputObject
    if Contains ExpressionContainer InputExpressionName then
      let Input := E.PopulateExpressionInput InputObject (Find ExpressionContainer InputExpressionName)
      if i < NumCustomizedUVs then
        CustomizedUVsLoop E ExpressionContainer (i + 1) rest (CustomizedUVs.set i Input)
      else none
    else CustomizedUVsLoop E ExpressionContainer (i + 1) rest CustomizedUVs

/-- The block guarded by `!bSkipResultNodeConnection` in the full-graph path (lines 397-431).
Returns the object `Props` designates afterwards and the material. -/
def ConnectResultNode (E : Engine) (S : ImporterState) (Material : UMaterial) :
    Option (FJsonObject × UMaterial) :=
  let Props := RemoveIgnoredProperties S.Props
  let RawConnectionData := Props
  let Material := E.DeserializeEditorOnlyData RawConnectionData Material
  match TryGetArrayField Props "CustomizedUVs" with
  | none => some (Props, Material)
  | some InputsPtr =>
    match CustomizedUVsLoop E S.ExpressionContainer 0 InputsPtr Material.CustomizedUVs with
    | none => none
    | some CustomizedUVs => some (Props, { Material with CustomizedUVs := CustomizedUVs })

/-- One element of `ParameterGroupData` (lines 439-446). -/
def ParseGroupData (E : Engine) (ParameterGroupDataObject : FJsonValue) : FParameterGroupData :=
  let GroupData := E.NewParameterGroupData
  let GroupData :=
    match TryGetStringField E (AsObject ParameterGroupDataObject) "GroupName" with
    | some GroupName => { GroupData with GroupName := GroupName }
    | none => GroupData
  match TryGetNumberField_int32 E (AsObject ParameterGroupDataObject) "GroupSortPriority" with
  | some GroupSortPriority => { GroupData with GroupSortPriority := GroupSortPriority }
  | none => GroupData

/-- The loop of lines 437-447: null elements are passed over. -/
def ParseParameterGroupData (E : Engine) : List FJsonValue → List FParameterGroupData
  | [] => []
  | ParameterGroupDataObject :: rest =>
    if IsNull ParameterGroupDataObject then ParseParameterGroupData E rest
    else ParseGroupData E ParameterGroupDataObject :: ParseParameterGroupData E rest

/-- Lines 433-450: the parameter-group table read from `Props`. -/
def ReadParameterGroupData (E : Engine) (Props : FJsonObject) (Material : UMaterial) : UMaterial :=
  match TryGetArrayField Props "ParameterGroupData" with
  | none => Material
  | some StringParameterGroupData =>
    { Material with ParameterGroupData := ParseParameterGroupData E StringParameterGroupData }

/-- The material as it stands at line 451 of the full-graph path; `none` when a store past the
end of `CustomizedUVs` ended the run. -/
def FullGraph (E : Engine) (Settings : MaterialImportSettings) (S : ImporterState)
    (Material : UMaterial) : Option UMaterial :=
  let Material := E.PropagateExpressions S.ExpressionContainer Material
  let Connected :=
    if !Settings.bSkipResultNodeConnection then ConnectResultNode E S Material
    else some (S.Props, Material)
  match Connected with
  | none => none
  | some (Props, Material) => some (ReadParameterGroupData E Props Material)

/-- The full-graph path (lines 388-485). -/
def FullGraphPath (E : Engine) (Settings : MaterialImportSettings) (S : ImporterState)
    (Material : UMaterial) : Option ImportResult :=
  match FullGraph E Settings S Material with
  | none => none
  | some Material =>
    let Events :=
      (if !Settings.bSkipResultNodeConnection then [Event.DeserializeObjectProperties] else [])
        ++ [Event.OnAssetCreation]
    if !E.OnAssetCreation Material then
      some { success := false, Material := Material, Events := Events }
    else
      let Material := ReadShadingModels E S.AssetData Material
      let Material := E.DeserializeObjectProperties S.AssetData Material
      some { success := true, Material := Material,
             Events := Events ++ [.DeserializeObjectProperties, .UpdateCachedExpressionData,
               .ForceRecompileForRendering, .PostEditChange, .MarkPackageDirty, .PreEditChange,
               .Save] }

/-- Line 32: `Material->GetExpressionCollection().Empty()`. -/
def ClearExpressions (Material : UMaterial) : UMaterial :=
  { Material with Expressions := [] }

/-- The entry point `IMaterialImporter::Import`.  `FactoryCreateNew` is what
`Cast<UMaterial>(MaterialFactory->FactoryCreateNew(...))` yields; the next statement
dereferences it, so a null result ends the run (`none`). -/
def Import (E : Engine) (Settings : MaterialImportSettings) (S : ImporterState)
    (FactoryCreateNew : Option UMaterial) : Option ImportResult :=
  match FactoryCreateNew with
  | none => none
  | some Material =>
    let Material := ClearExpressions Material
    if S.ExpressionContainer.length = 0 then
      some (FallbackPath E Settings S Material)
    else
      FullGraphPath E Settings S Material

/-! ## Observations on a graph -/

/-- A parameter of the snapshot with its value: what a leaf of the fallback graph carries. -/
inductive Entry where
  | scalar (Name : FName) (Value : ℚ)
  | vector (Name : FName) (Value : FLinearColor)
  | texture (Name : FName) (Value : Option UTexture)
  | switch (Name : FName) (Value : Bool)
deriving DecidableEq

/-- The parameter a pin is fed by: the name and value of the leaf it is connected to.  A
switch parameter counts only when both of its own pins are fed by one and the same constant
of value 1. -/
def LeafOf (Expressions : List UMaterialExpression) (Input : FExpressionInput) : Option Entry :=
  match Input.Expression with
  | none => none
  | some param =>
    match Expressions[param]? with
    | some (.ScalarParameter e) => some (.scalar e.ParameterName e.DefaultValue)
    | some (.VectorParameter e) => some (.vector e.ParameterName e.DefaultValue)
    | some (.TextureSampleParameter2D e) => some (.texture e.ParameterName e.Texture)
    | some (.StaticSwitchParameter e) =>
      match e.A.Expression with
      | none => none
      | some constVal =>
        match Expressions[constVal]? with
        | some (.Constant c) =>
          if e.B.Expression = some constVal ∧ c.R = 1 then some (.switch e.ParameterName e.DefaultValue)
          else none
        | _ => none
    | _ => none

/-- A merge node read as the parameter its first input is fed by; `none` for other nodes. -/
def MergeLeafOf (Expressions : List UMaterialExpression) : UMaterialExpression → Option (Option Entry)
  | .Add e => some (LeafOf Expressions e.A)
  | _ => none

/-- The merge nodes of a graph in creation order, each read as the parameter its first input
is fed by. -/
def MergeLeaves (Expressions : List UMaterialExpression) : List (Option Entry) :=
  Expressions.filterMap (MergeLeafOf Expressions)

/-- Test for a merge node. -/
def IsAdd : UMaterialExpression → Bool
  | .Add _ => true
  | _ => false

/-- Test for a clamp node. -/
def IsClamp : UMaterialExpression → Bool
  | .Clamp _ => true
  | _ => false

/-- Test for an aggregation node. -/
def IsSetMaterialAttributes : UMaterialExpression → Bool
  | .SetMaterialAttributes _ => true
  | _ => false

/-- The positions, counted from `i`, of the nodes of a list that pass a test. -/
def NodesFrom (p : UMaterialExpression → Bool) : Nat → List UMaterialExpression → List Nat
  | _, [] => []
  | i, e :: rest => if p e then i :: NodesFrom p (i + 1) rest else NodesFrom p (i + 1) rest

/-- The positions of the nodes of a graph that pass a test, in creation order. -/
def NodesWhere (p : UMaterialExpression → Bool) (Expressions : List UMaterialExpression) : List Nat :=
  NodesFrom p 0 Expressions

/-- The producer of the first input of a merge node. -/
def FirstInput (Expressions : List UMaterialExpression) (node : Nat) : Option Nat :=
  match Expressions[node]? with
  | some (.Add e) => e.A.Expression
  | _ => none

/-- The producer of the second input of a merge node. -/
def SecondInput (Expressions : List UMaterialExpression) (node : Nat) : Option Nat :=
  match Expressions[node]? with
  | some (.Add e) => e.B.Expression
  | _ => none

/-- The producer of the input of a clamp node. -/
def ClampInput (Expressions : List UMaterialExpression) (node : Nat) : Option Nat :=
  match Expressions[node]? with
  | some (.Clamp e) => e.Input.Expression
  | _ => none

/-! ## The specification's reading of the snapshot (spec sections 4.4 and 4.5) -/

namespace Spec

/-- The table of section 4.5: the output slot bound for a domain and the unlit flag. -/
def BoundSlot (domain : EMaterialDomain) (unlit : Bool) : EMaterialProperty :=
  if domain = .MD_Surface then (if unlit then .MP_EmissiveColor else .MP_BaseColor)
  else if domain = .MD_LightFunction ∨ domain = .MD_PostProcess ∨ domain = .MD_UI then .MP_EmissiveColor
  else if domain = .MD_DeferredDecal then .MP_WorldPositionOffset
  else .MP_BaseColor

/-- The four categories of the snapshot, in their fixed order. -/
inductive Category where
  | Scalar
  | Vector
  | Texture
  | Switch
deriving DecidableEq

/-- The `RuntimeEntries[k]` object holding a category's descriptors. -/
def Category.RuntimeEntries : Category → String
  | .Scalar => "RuntimeEntries"
  | .Vector => "RuntimeEntries[1]"
  | .Texture => "RuntimeEntries[3]"
  | .Switch => "RuntimeEntries[7]"

/-- The raw-value array of a category. -/
def Category.Values : Category → String
  | .Scalar => "ScalarValues"
  | .Vector => "VectorValues"
  | .Texture => "TextureValues"
  | .Switch => "StaticSwitchValues"

/-- The index-redirection array of a category, for the two categories that have one. -/
def Category.Redirection : Category → Option String
  | .Scalar => some "ScalarPrimitiveDataIndexValues"
  | .Vector => some "VectorPrimitiveDataIndexValues"
  | .Texture => none
  | .Switch => none

/-- The positionally-correlated arrays a category supplies: descriptors, raw values and, for
scalars and vectors, the redirection array.  `none` when one of them is not supplied. -/
def Category.Arrays (cat : Category) (CachedExpressionData : FJsonObject) :
    Option (List (List FJsonValue)) :=
  match (TryGetObjectField CachedExpressionData cat.RuntimeEntries).bind
      (fun RuntimeEntries => TryGetArrayField RuntimeEntries "ParameterInfoSet"),
    TryGetArrayField CachedExpressionData cat.Values with
  | some descriptors, some values =>
    match cat.Redirection with
    | none => some [descriptors, values]
    | some Redirection =>
      match TryGetArrayField CachedExpressionData Redirection with
      | some redirection => some [descriptors, values, redirection]
      | none => none
  | _, _ => none

/-- A category is mismatched when it supplies its arrays and they do not all have the same
length. -/
def Category.Mismatched (cat : Category) (CachedExpressionData : FJsonObject) : Bool :=
  match cat.Arrays CachedExpressionData with
  | some (descriptors :: rest) => !(rest.all fun a => a.length == descriptors.length)
  | _ => false

/-- The snapshot without a category: its value array and redirection array taken away. -/
def Category.Remove (cat : Category) (CachedExpressionData : FJsonObject) : FJsonObject :=
  let Without := RemoveField CachedExpressionData cat.Values
  match cat.Redirection with
  | none => Without
  | some Redirection => RemoveField Without Redirection

/-- The effective value index for entry `i`: the redirection value unless it is the
sentinel `-1`, otherwise `i` itself. -/
def EffectiveIndex (redirection : Int) (i : Nat) : Int :=
  if redirection ≠ -1 then redirection else (i : Int)

/-- The value a scalar or vector entry at position `i` resolves to; `none` when the effective
index is out of bounds for the value array. -/
def RedirectedValue (E : Engine) (redirection values : List FJsonValue) (i : Nat) :
    Option FJsonValue := do
  let r ← redirection[i]?
  let r ← E.TryGetNumber_int32 r
  let k := EffectiveIndex r i
  if k < 0 ∨ (values.length : Int) ≤ k then none else values[k.toNat]?

/-- The name of the descriptor at position `i`. -/
def NameAt (E : Engine) (descriptors : List FJsonValue) (i : Nat) : Option FName := do
  let d ← descriptors[i]?
  TryGetStringField E (AsObject d) "Name"

/-- The path pair of a texture value, materialized by the Asset Resolver (null on failure). -/
def ResolveTexture (E : Engine) (value : FJsonValue) : Option (Option UTexture) := do
  let pair ← TryGetObject value
  let AssetPathName ← TryGetStringField E pair "AssetPathName"
  let SubPathString ← TryGetStringField E pair "SubPathString"
  pure (E.LoadSynchronous AssetPathName SubPathString)

/-- The entry of a category at position `i`, when it is valid. -/
def EntryAt (E : Engine) (cat : Category) (arrays : List (List FJsonValue)) (i : Nat) :
    Option Entry :=
  match cat, arrays with
  | .Scalar, [descriptors, values, redirection] => do
    let Name ← NameAt E descriptors i
    let value ← RedirectedValue E redirection values i
    let Value ← E.TryGetNumber_float value
    pure (.scalar Name Value)
  | .Vector, [descriptors, values, redirection] => do
    let Name ← NameAt E descriptors i
    let value ← RedirectedValue E redirection values i
    let color ← TryGetObject value
    let R ← TryGetNumberField_float E color "R"
    let G ← TryGetNumberField_float E color "G"
    let B ← TryGetNumberField_float E color "B"
    let A ← TryGetNumberField_float E color "A"
    pure (.vector Name { R := R, G := G, B := B, A := A })
  | .Texture, [descriptors, values] => do
    let Name ← NameAt E descriptors i
    let value ← values[i]?
    let Value ← ResolveTexture E value
    pure (.texture Name Value)
  | .Switch, [descriptors, values] => do
    let Name ← NameAt E descriptors i
    let value ← values[i]?
    let Value ← E.TryGetBool value
    pure (.switch Name Value)
  | _, _ => none

/-- The valid entries of one category in array order: none when the category is not supplied
or is mismatched. -/
def CategoryEntries (E : Engine) (cat : Category) (CachedExpressionData : FJsonObject) :
    List Entry :=
  match cat.Arrays CachedExpressionData with
  | some (descriptors :: rest) =>
    if cat.Mismatched CachedExpressionData then []
    else (List.range descriptors.length).filterMap (EntryAt E cat (descriptors :: rest))
  | _ => []

/-- The valid entries of a snapshot: scalars, then vectors, then textures, then switches. -/
def ValidEntries (E : Engine) (CachedExpressionData : FJsonObject) : List Entry :=
  CategoryEntries E .Scalar CachedExpressionData ++ CategoryEntries E .Vector CachedExpressionData
    ++ CategoryEntries E .Texture CachedExpressionData ++ CategoryEntries E .Switch CachedExpressionData

end Spec

/-- The code of a category. -/
def RunCategory (E : Engine) (clamp : Nat) : Spec.Category → FJsonObject → SynthState → SynthState
  | .Scalar => ScalarCategory E clamp
  | .Vector => VectorCategory E clamp
  | .Texture => TextureCategory E clamp
  | .Switch => SwitchCategory E clamp

/-! ## A concrete engine for worked examples -/

/-- A string field read without conversion from other kinds of value. -/
def TryGetStringField_strict (o : FJsonObject) (FieldName : String) : Option String :=
  match TryGetField o FieldName with
  | some (.String s) => some s
  | _ => none

/-- An engine whose JSON readers accept only the matching kind of value (integers for
`int32`), whose attribute identifiers number the properties, whose creation hook accepts
every material, whose property deserializer does nothing, and for which the name of the
node an input refers to is the `ObjectName` of its `Expression`. -/
def exampleEngine : Engine where
  TryGetString := fun v => match v with
    | .String s => some s
    | _ => none
  TryGetNumber_int32 := fun v => match v with
    | .Number q => if q.den = 1 then some q.num else none
    | _ => none
  TryGetNumber_float := fun v => match v with
    | .Number q => some q
    | _ => none
  TryGetBool := fun v => match v with
    | .Boolean b => some b
    | _ => none
  GetID := fun Property => match Property with
    | .MP_EmissiveColor => 1
    | .MP_BaseColor => 2
    | .MP_WorldPositionOffset => 3
    | .MP_MaterialAttributes => 4
  GetDisplayNameForMaterial := fun AttributeID _ => match AttributeID with
    | 1 => "Emissive Color"
    | 2 => "Base Color"
    | 3 => "World Position Offset"
    | _ => "Material Attributes"
  NewSetMaterialAttributes :=
    { MaterialExpressionEditorX := 0, MaterialExpressionEditorY := 0, AttributeSetTypes := [],
      Inputs := [{ InputName := "MaterialAttributes" }] }
  LoadSynchronous := fun AssetPathName _ => if AssetPathName = "" then none else some AssetPathName
  GetSamplerTypeForTexture := fun _ => 0
  OnAssetCreation := fun _ => true
  DeserializeObjectProperties := fun _ Material => Material
  DeserializeEditorOnlyData := fun _ Material => Material
  PropagateExpressions := fun ExpressionContainer Material =>
    { Material with Expressions := ExpressionContainer.map (fun Export => .Other Export.1) }
  GetExpressionName := fun InputObject =>
    match TryGetStringField_strict (GetObjectField InputObject "Expression") "ObjectName" with
    | some s => s
    | none => ""
  PopulateExpressionInput := fun _ Expression => { Expression := Expression }
  NewParameterGroupData := { GroupName := "", GroupSortPriority := 0 }

/-- A material as the factory creates it: a lit surface that does not use attributes, with
no expression and every root input unconnected. -/
def exampleMaterial : UMaterial :=
  { MaterialDomain := .MD_Surface, bUseMaterialAttributes := false, ShadingModels := 2,
    Expressions := [], EmissiveColor := {}, BaseColor := {}, WorldPositionOffset := {},
    MaterialAttributes := {}, CustomizedUVs := List.replicate NumCustomizedUVs {},
    ParameterGroupData := [] }

/-- A parameter descriptor `{Name: ...}`. -/
def exampleParam (Name : String) : FJsonValue :=
  .Object [("Name", .String Name)]

/-- The scalar snapshot of the worked example: descriptors `A`, `B`, redirection `[-1, 0]`,
values `[5.0, 9.0]`. -/
def exampleScalars : FJsonObject :=
  [("RuntimeEntries", .Object [("ParameterInfoSet", .Array [exampleParam "A", exampleParam "B"])]),
   ("ScalarPrimitiveDataIndexValues", .Array [.Number (-1), .Number 0]),
   ("ScalarValues", .Array [.Number 5, .Number 9])]

/-! ## Auxiliary definitions for the proofs -/

/-! ## The chain in closed form -/

/-- The leaf nodes synthesized for an entry at layout position `(x, y)` when the collection
holds `n` nodes. -/
def LeafNodes (E : Engine) (x y : Int) (n : Nat) : Entry → List UMaterialExpression
  | .scalar Name Value =>
    [.ScalarParameter { ParameterName := Name, MaterialExpressionEditorX := x,
                        MaterialExpressionEditorY := y, DefaultValue := Value }]
  | .vector Name Value =>
    [.VectorParameter { ParameterName := Name, MaterialExpressionEditorX := x,
                        MaterialExpressionEditorY := y, DefaultValue := Value }]
  | .texture Name Value =>
    [.TextureSampleParameter2D { ParameterName := Name, MaterialExpressionEditorX := x,
                                 MaterialExpressionEditorY := y, Texture := Value,
                                 SamplerType := E.GetSamplerTypeForTexture Value }]
  | .switch Name Value =>
    [.Constant { MaterialExpressionEditorX := x, MaterialExpressionEditorY := y, R := 1 },
     .StaticSwitchParameter
       { A := ({} : FExpressionInput).Connect 0 n, B := ({} : FExpressionInput).Connect 0 n,
         ParameterName := Name, MaterialExpressionEditorX := x, MaterialExpressionEditorY := y,
         DefaultValue := Value }]

/-- Synthesis of one valid entry: its leaf nodes followed by the merge block. -/
def Emit (E : Engine) (clamp : Nat) (en : Entry) (st : SynthState) : SynthState :=
  let Leaves := LeafNodes E st.x st.y st.Expressions.length en
  ChainAdd clamp { st with Expressions := st.Expressions ++ Leaves }
    (st.Expressions.length + Leaves.length - 1)

/-- Synthesis of an entry that may be invalid. -/
def EmitOpt (E : Engine) (clamp : Nat) (en : Option Entry) (st : SynthState) : SynthState :=
  match en with
  | none => st
  | some en => Emit E clamp en st

/-- A synthesized entry with the layout position of its leaf. -/
structure Block where
  entry : Entry
  x : Int
  y : Int

/-- Number of nodes of a block: the leaf nodes and the merge node. -/
def Block.Size (b : Block) : Nat :=
  match b.entry with
  | .switch _ _ => 3
  | _ => 2

/-- Number of nodes of a list of blocks. -/
def Blocks.Size : List Block → Nat
  | [] => 0
  | b :: rest => b.Size + Blocks.Size rest

/-- The merge node of the first block of a list laid out from position `n`; `t` when the list
is empty. -/
def NextAdd (n : Nat) : List Block → Option Nat → Option Nat
  | [], t => t
  | b :: _, _ => some (n + b.Size - 1)

/-- The merge node of the last block of a list laid out from position `n`. -/
def LastAdd (n : Nat) : List Block → Option Nat
  | [] => none
  | [b] => some (n + b.Size - 1)
  | b :: c :: rest => LastAdd (n + b.Size) (c :: rest)

/-- A pin fed by an optional producer. -/
def Link : Option Nat → FExpressionInput
  | none => {}
  | some a => ({} : FExpressionInput).Connect 0 a

/-- The merge node of a block laid out from position `n`, its second input fed by `next`. -/
def Block.AddNode (b : Block) (n : Nat) (next : Option Nat) : UMaterialExpression :=
  .Add { MaterialExpressionEditorX := b.x + 16 * 8 * 2, MaterialExpressionEditorY := b.y,
         A := ({} : FExpressionInput).Connect 0 (n + b.Size - 2), B := Link next }

/-- The nodes of a list of blocks laid out from position `n`: every merge node has its second
input fed by the merge node of the next block, the last one by `t`. -/
def Render (E : Engine) : Nat → List Block → Option Nat → List UMaterialExpression
  | _, [], _ => []
  | n, b :: rest, t =>
    LeafNodes E b.x b.y n b.entry ++
      b.AddNode n (NextAdd (n + b.Size) rest t) :: Render E (n + b.Size) rest t

/-- The nodes that precede the chain, with the clamp fed by the first merge node if any. -/
def ConnectFirst (Expressions : List UMaterialExpression) (clamp : Nat) :
    Option Nat → List UMaterialExpression
  | none => Expressions
  | some a => ConnectClampInput Expressions clamp a

/-- The state of the synthesizer after the blocks `bs` were chained behind the nodes `pre`. -/
def Rep (E : Engine) (clamp : Nat) (pre : List UMaterialExpression) (bs : List Block)
    (st : SynthState) : Prop :=
  st.Expressions = ConnectFirst pre clamp (NextAdd pre.length bs none) ++ Render E pre.length bs none
    ∧ st.lastAdd = LastAdd pre.length bs

/-- The aggregation node as the Output Binder leaves it: the identifier of the selected
attribute and one input, named after it and fed by `producer`, appended to what a fresh node
holds. -/
def AggregationNode (E : Engine) (Material : UMaterial) (producer : Option Nat) :
    UMaterialExpressionSetMaterialAttributes :=
  let AttributeID := E.GetID (SelectAttributeProperty Material)
  let Pending : UMaterialExpressionSetMaterialAttributes :=
    { MaterialExpressionEditorX := 0 - 16 * 8 * 2, MaterialExpressionEditorY := 0,
      AttributeSetTypes := E.NewSetMaterialAttributes.AttributeSetTypes ++ [AttributeID],
      Inputs := E.NewSetMaterialAttributes.Inputs ++ [({} : FExpressionInput)] }
  let Bound := Material.SetRootExpression .MP_MaterialAttributes Material.Expressions.length
  let InputName := E.GetDisplayNameForMaterial AttributeID
    { Bound with Expressions := Material.Expressions ++ [.SetMaterialAttributes Pending] }
  { Pending with Inputs := E.NewSetMaterialAttributes.Inputs ++
      [{ Expression := producer, OutputIndex := 0, InputName := InputName }] }

/-- The nodes the Output Binder creates, the clamp fed by `first`: the clamp alone, or the
aggregation node (fed by the clamp) and the clamp. -/
def Prelude (E : Engine) (Material : UMaterial) (first : Option Nat) : List UMaterialExpression :=
  if Material.bUseMaterialAttributes then
    [.SetMaterialAttributes (AggregationNode E Material (some (Material.Expressions.length + 1))),
     .Clamp { MaterialExpressionEditorX := 0 - 16 * 8 * 2 - 16 * 8 * 2 + 16 * 4,
              MaterialExpressionEditorY := 0, MinDefault := 0, MaxDefault := 1, Input := Link first }]
  else
    [.Clamp { MaterialExpressionEditorX := 0 - 16 * 8 * 2 + 16 * 4,
              MaterialExpressionEditorY := 0, MinDefault := 0, MaxDefault := 1, Input := Link first }]

/-- The positions of the merge nodes of a list of blocks laid out from position `n`. -/
def AddPositions (n : Nat) : List Block → List Nat
  | [] => []
  | b :: rest => (n + b.Size - 1) :: AddPositions (n + b.Size) rest

/-- The material the fallback path has built when it reaches line 365 with output binding not
skipped, starting from the material the factory created. -/
def FallbackMaterial (E : Engine) (S : ImporterState) (Material : UMaterial) : UMaterial :=
  (FallbackGraph E { bSkipResultNodeConnection := false } S (ClearExpressions Material)).1

/-- The material on which the Output Binder of the fallback path decides: the factory's
material, emptied, with the shading models of the document. -/
def BinderInput (E : Engine) (S : ImporterState) (Material : UMaterial) : UMaterial :=
  ReadShadingModels E S.AssetData (ClearExpressions Material)

/-- The importer state of the worked example: no authoritative graph, the scalar snapshot. -/
def exampleState : ImporterState :=
  { AssetData := [], Props := [], ExpressionContainer := [], CachedExpressionData := exampleScalars }

/-- The example material in attribute-aggregation mode. -/
def exampleAttributeMaterial : UMaterial :=
  { exampleMaterial with bUseMaterialAttributes := true }

/-- The statement `y += dy` that ends a loop body. -/
def NextRow (dy : Int) (st : SynthState) : SynthState :=
  { st with y := st.y + dy }

/-- The colour a vector value holds, when it is an object with numeric `R`, `G`, `B`, `A`. -/
def ReadVectorValue (E : Engine) (value : FJsonValue) : Option FLinearColor :=
  (TryGetObject value).bind (ReadLinearColor E)

/-- A synthesizer state for worked examples: the collection holds one clamp, nothing is
chained yet. -/
def exampleSynthState : SynthState :=
  { Expressions := [.Clamp { MaterialExpressionEditorX := -192, MaterialExpressionEditorY := 0,
                             MinDefault := 0, MaxDefault := 1 }],
    lastAdd := none, x := -640, y := 96, Events := [] }

/-- A texture value: a path pair. -/
def exampleTexture (AssetPathName : String) : FJsonValue :=
  .Object [("AssetPathName", .String AssetPathName), ("SubPathString", .String "")]

/-- A snapshot whose texture category is mismatched (3 descriptors, 2 raw values) next to the
scalars of the worked example. -/
def exampleMismatched : FJsonObject :=
  exampleScalars ++
  [("RuntimeEntries[3]",
      .Object [("ParameterInfoSet", .Array [exampleParam "T0", exampleParam "T1", exampleParam "T2"])]),
   ("TextureValues", .Array [exampleTexture "/Game/T0", exampleTexture "/Game/T1"])]

/-- A reference to a named node, as an element of `CustomizedUVs`. -/
def exampleInput (ExpressionName : String) : FJsonValue :=
  .Object [("Expression", .Object [("ObjectName", .String ExpressionName)])]

/-- Graph properties of a full-graph document: one parameter group and one customized UV that
names the node `Node0`. -/
def exampleGraphProps : FJsonObject :=
  [("ParameterGroupData",
      .Array [.Object [("GroupName", .String "G"), ("GroupSortPriority", .Number 1)]]),
   ("CustomizedUVs", .Array [exampleInput "Node0"])]

/-- The importer state of a full-graph document whose registry holds the node `Node0`. -/
def exampleGraphState : ImporterState :=
  { AssetData := [], Props := exampleGraphProps, ExpressionContainer := [("Node0", 0)],
    CachedExpressionData := [] }

/-- The material handed to `OnAssetCreation`; `none` when the run ended before. -/
def MaterialAtCreation (E : Engine) (Settings : MaterialImportSettings) (S : ImporterState)
    (Material : UMaterial) : Option UMaterial :=
  if S.ExpressionContainer.length = 0 then
    some (FallbackGraph E Settings S (ClearExpressions Material)).1
  else FullGraph E Settings S (ClearExpressions Material)

/-! ## The collection after each category -/

namespace Spec

/-- The categories processed before a category, in processing order. -/
def Category.Earlier : Category → List Category
  | .Scalar => []
  | .Vector => [.Scalar]
  | .Texture => [.Scalar, .Vector]
  | .Switch => [.Scalar, .Vector, .Texture]

/-- The categories processed after a category, in processing order. -/
def Category.Later : Category → List Category
  | .Scalar => [.Vector, .Texture, .Switch]
  | .Vector => [.Texture, .Switch]
  | .Texture => [.Switch]
  | .Switch => []

/-- The valid entries of a list of categories, category after category. -/
def EntriesOfCategories (E : Engine) (CachedExpressionData : FJsonObject) : List Category → List Entry
  | [] => []
  | cat :: rest =>
    CategoryEntries E cat CachedExpressionData ++ EntriesOfCategories E CachedExpressionData rest

/-- The entry a descriptor name and a raw value make in a category, when the value has the
shape the category asks for. -/
def LeafEntry (E : Engine) (cat : Category) (Name : FName) (value : FJsonValue) : Option Entry :=
  match cat with
  | .Scalar => (E.TryGetNumber_float value).map (Entry.scalar Name)
  | .Vector => (ReadVectorValue E value).map (Entry.vector Name)
  | .Texture => (ResolveTexture E value).map (Entry.texture Name)
  | .Switch => (E.TryGetBool value).map (Entry.switch Name)

end Spec

/-- Number of nodes synthesized for an entry: its leaf (for a switch, the constant and the
switch node) and its merge node. -/
def Entry.Nodes : Entry → Nat
  | .switch _ _ => 3
  | _ => 2

/-- The locals and the collection when the parameter recreation of the fallback path starts
(line 133), output binding not skipped. -/
def RecreationStart (E : Engine) (S : ImporterState) (Material : UMaterial) : SynthState :=
  { Expressions := (BindOutput E (BinderInput E S Material)).1.Expressions, lastAdd := none,
    x := (BindOutput E (BinderInput E S Material)).2.1, y := 0,
    Events := [Event.SpawnMaterialDataMissingNotification] }

/-- The collection of the fallback path right after the code of a category has run: the
categories before it and then the category itself, from the start of the parameter
recreation. -/
def GraphAfter (E : Engine) (S : ImporterState) (Material : UMaterial) (cat : Spec.Category) :
    List UMaterialExpression :=
  (RunCategory E (BindOutput E (BinderInput E S Material)).2.2.1 cat S.CachedExpressionData
    (cat.Earlier.foldl
      (fun st earlier =>
        RunCategory E (BindOutput E (BinderInput E S Material)).2.2.1 earlier S.CachedExpressionData st)
      (RecreationStart E S Material))).Expressions

/-- A vector value `{R, G, B, A}`. -/
def exampleColor (R G B A : ℚ) : FJsonValue :=
  .Object [("R", .Number R), ("G", .Number G), ("B", .Number B), ("A", .Number A)]

/-- The descriptors of the vector example: `V0`, `V1`, `V2`. -/
def exampleVectorParams : List FJsonValue :=
  [exampleParam "V0", exampleParam "V1", exampleParam "V2"]

/-- The redirection array of the vector example: `[1, -1, 7]`. -/
def exampleVectorIndexes : List FJsonValue :=
  [.Number 1, .Number (-1), .Number 7]

/-- The values of the vector example. -/
def exampleVectorValues : List FJsonValue :=
  [exampleColor 1 0 0 1, exampleColor 0 1 0 1, exampleColor 0 0 1 1]

/-- The snapshot of the worked example with a vector category next to its scalars. -/
def exampleVectors : FJsonObject :=
  exampleScalars ++
  [("RuntimeEntries[1]", .Object [("ParameterInfoSet", .Array exampleVectorParams)]),
   ("VectorPrimitiveDataIndexValues", .Array exampleVectorIndexes),
   ("VectorValues", .Array exampleVectorValues)]

/-- The importer state of the vector example. -/
def exampleVectorState : ImporterState :=
  { exampleState with CachedExpressionData := exampleVectors }

/-! ## Theorems -/

theorem Block.Size_pos (b : Block) : 2 ≤ b.Size := by
  unfold Block.Size; split <;> omega

theorem length_LeafNodes (E : Engine) (b : Block) (n : Nat) :
    (LeafNodes E b.x b.y n b.entry).length + 1 = b.Size := by
  unfold Block.Size LeafNodes
  cases b.entry <;> rfl

theorem length_Render (E : Engine) (bs : List Block) : ∀ (n : Nat) (t : Option Nat),
    (Render E n bs t).length = Blocks.Size bs := by
  induction bs with
  | nil => intro n t; rfl
  | cons b rest ih =>
    intro n t
    have h := length_LeafNodes E b n
    simp only [Render, Blocks.Size, List.length_append, List.length_cons, ih]
    omega

theorem Blocks.Size_append (bs cs : List Block) :
    Blocks.Size (bs ++ cs) = Blocks.Size bs + Blocks.Size cs := by
  induction bs with
  | nil => simp [Blocks.Size]
  | cons b rest ih => simp [Blocks.Size, ih]; omega

theorem NextAdd_append (n : Nat) (bs cs : List Block) (t : Option Nat) :
    NextAdd n (bs ++ cs) t = NextAdd n bs (NextAdd (n + Blocks.Size bs) cs t) := by
  cases bs with
  | nil => simp [NextAdd, Blocks.Size]
  | cons b rest => simp [NextAdd]

theorem Render_append (E : Engine) (bs cs : List Block) : ∀ (n : Nat) (t : Option Nat),
    Render E n (bs ++ cs) t
      = Render E n bs (NextAdd (n + Blocks.Size bs) cs t) ++ Render E (n + Blocks.Size bs) cs t := by
  induction bs with
  | nil => intro n t; simp [Render, Blocks.Size]
  | cons b rest ih =>
    intro n t
    simp [Render, ih, NextAdd_append, Blocks.Size, Nat.add_assoc]

theorem LastAdd_snoc (bs : List Block) (b : Block) : ∀ (n : Nat),
    LastAdd n (bs ++ [b]) = some (n + Blocks.Size bs + b.Size - 1) := by
  induction bs with
  | nil => intro n; simp [LastAdd, Blocks.Size]
  | cons c rest ih =>
    intro n
    cases rest with
    | nil => simp [LastAdd, Blocks.Size]
    | cons d rest2 =>
      have := ih (n + c.Size)
      show LastAdd (n + c.Size) (d :: rest2 ++ [b]) = _
      rw [this]; simp only [Blocks.Size]; congr 1; omega

theorem ConnectAddB_append_left (L M : List UMaterialExpression) (j a : Nat) (hj : j < L.length) :
    ConnectAddB (L ++ M) j a = ConnectAddB L j a ++ M := by
  unfold ConnectAddB
  rw [List.getElem?_append_left hj]
  split <;> simp [List.set_append, hj]

theorem ConnectAddB_append_right (L M : List UMaterialExpression) (j a : Nat) (hj : L.length ≤ j) :
    ConnectAddB (L ++ M) j a = L ++ ConnectAddB M (j - L.length) a := by
  unfold ConnectAddB
  rw [List.getElem?_append_right hj]
  split <;> simp [List.set_append, Nat.not_lt.mpr hj]

theorem ConnectClampInput_append_left (L M : List UMaterialExpression) (j a : Nat) (hj : j < L.length) :
    ConnectClampInput (L ++ M) j a = ConnectClampInput L j a ++ M := by
  unfold ConnectClampInput
  rw [List.getElem?_append_left hj]
  split <;> simp [List.set_append, hj]

theorem length_ConnectClampInput (L : List UMaterialExpression) (j a : Nat) :
    (ConnectClampInput L j a).length = L.length := by
  unfold ConnectClampInput
  split <;> simp

theorem length_ConnectFirst (L : List UMaterialExpression) (j : Nat) (o : Option Nat) :
    (ConnectFirst L j o).length = L.length := by
  cases o <;> simp [ConnectFirst, length_ConnectClampInput]

/-- Feeding the second input of the last merge node of a rendered chain. -/
theorem ConnectAddB_Render (E : Engine) (a : Nat) (bs : List Block) (hbs : bs ≠ []) : ∀ (n : Nat),
    ∃ j, LastAdd n bs = some j ∧ n ≤ j ∧ j < n + Blocks.Size bs ∧
      ConnectAddB (Render E n bs none) (j - n) a = Render E n bs (some a) := by
  induction bs with
  | nil => exact absurd rfl hbs
  | cons b rest ih =>
    intro n
    have hl := length_LeafNodes E b n
    have hp := b.Size_pos
    cases rest with
    | nil =>
      refine ⟨n + b.Size - 1, rfl, by omega, by simp [Blocks.Size]; omega, ?_⟩
      simp only [Render, NextAdd]
      rw [ConnectAddB_append_right _ _ _ _ (by omega)]
      have : n + b.Size - 1 - n - (LeafNodes E b.x b.y n b.entry).length = 0 := by omega
      rw [this]
      simp [ConnectAddB, Link, FExpressionInput.Connect, Block.AddNode]
    | cons c rest2 =>
      obtain ⟨j, hj, hle, hlt, heq⟩ := ih (by simp) (n + b.Size)
      refine ⟨j, by simpa [LastAdd] using hj, by omega, by simp only [Blocks.Size] at hlt ⊢; omega, ?_⟩
      have e1 : ∀ t, Render E n (b :: c :: rest2) t
          = (LeafNodes E b.x b.y n b.entry ++ [b.AddNode n (some (n + b.Size + c.Size - 1))]) ++
            Render E (n + b.Size) (c :: rest2) t := by
        intro t
        simp [Render, NextAdd]
      rw [e1, e1, ConnectAddB_append_right _ _ _ _ (by simp; omega)]
      have : j - n - (LeafNodes E b.x b.y n b.entry ++
          [b.AddNode n (some (n + b.Size + c.Size - 1))]).length = j - (n + b.Size) := by
        simp; omega
      rw [this, heq]

theorem LastAdd_eq_none (bs : List Block) : ∀ (n : Nat), LastAdd n bs = none → bs = [] := by
  induction bs with
  | nil => intro _ _; rfl
  | cons b rest ih =>
    intro n h
    cases rest with
    | nil => simp [LastAdd] at h
    | cons c rest2 =>
      have := ih (n + b.Size) (by simpa [LastAdd] using h)
      simp at this

/-- Chaining one more entry extends the rendered chain by one block. -/
theorem Rep_Emit (E : Engine) (clamp : Nat) (pre : List UMaterialExpression) (bs : List Block)
    (st : SynthState) (en : Entry) (hc : clamp < pre.length) (h : Rep E clamp pre bs st) :
    Rep E clamp pre (bs ++ [⟨en, st.x, st.y⟩]) (Emit E clamp en st) := by
  obtain ⟨hL, hlast⟩ := h
  have hlen : st.Expressions.length = pre.length + Blocks.Size bs := by
    rw [hL, List.length_append, length_ConnectFirst, length_Render]
  have hl := length_LeafNodes E ⟨en, st.x, st.y⟩ st.Expressions.length
  have hp := Block.Size_pos ⟨en, st.x, st.y⟩
  simp only at hl
  generalize hk : (LeafNodes E st.x st.y st.Expressions.length en).length = k at hl
  have hidx : st.Expressions.length + k - 1
      = st.Expressions.length + Block.Size ⟨en, st.x, st.y⟩ - 2 := by omega
  have hnew : st.Expressions.length + k
      = pre.length + Blocks.Size bs + Block.Size ⟨en, st.x, st.y⟩ - 1 := by omega
  have hblock : LeafNodes E st.x st.y st.Expressions.length en ++
      [UMaterialExpression.Add
        { MaterialExpressionEditorX := st.x + 16 * 8 * 2, MaterialExpressionEditorY := st.y,
          A := ({} : FExpressionInput).Connect 0 (st.Expressions.length + k - 1) }]
      = Render E (pre.length + Blocks.Size bs) [⟨en, st.x, st.y⟩] none := by
    rw [← hlen, hidx]
    simp only [Render, NextAdd, Block.AddNode, Link]
  refine ⟨?_, ?_⟩
  · simp only [Emit, ChainAdd, AddExpression, List.append_assoc, List.length_append, hk, hblock]
    cases hb : bs with
    | nil =>
      subst hb
      simp only [hlast, LastAdd]
      simp only [hL, NextAdd, ConnectFirst, Render, List.append_nil, Blocks.Size, Nat.add_zero,
        List.nil_append]
      rw [ConnectClampInput_append_left _ _ _ _ hc]
      simp only [Blocks.Size, Nat.add_zero] at hnew
      rw [← hnew, hL]
      simp [ConnectFirst, NextAdd, Render]
    | cons c rest =>
      have hne : bs ≠ [] := by simp [hb]
      obtain ⟨j, hj, hle, hlt, heq⟩ := ConnectAddB_Render E (st.Expressions.length + k) bs hne pre.length
      rw [← hb]
      simp only [hlast, hj]
      rw [hL, List.append_assoc, ConnectAddB_append_right _ _ _ _ (by rw [length_ConnectFirst]; exact hle),
        length_ConnectFirst, ConnectAddB_append_left _ _ _ _ (by rw [length_Render]; omega)]
      rw [← hL, heq, Render_append, NextAdd_append]
      have e1 : NextAdd pre.length bs (NextAdd (pre.length + Blocks.Size bs) [⟨en, st.x, st.y⟩] none)
          = NextAdd pre.length bs none := by
        rw [hb]; rfl
      have e2 : NextAdd (pre.length + Blocks.Size bs) [(⟨en, st.x, st.y⟩ : Block)] none
          = some (st.Expressions.length + k) := by
        simp only [NextAdd, hnew]
      rw [e1, e2]
  · simp only [Emit, ChainAdd, AddExpression, LastAdd_snoc, List.length_append, hk, hnew]

theorem IsValidIndex_iff {α : Type} (a : List α) (k : Int) :
    IsValidIndex a k = true ↔ ¬ (k < 0 ∨ (a.length : Int) ≤ k) := by
  simp [IsValidIndex]

theorem IsValidIndex_natCast {α : Type} (a : List α) (i : Nat) (v : α) (h : a[i]? = some v) :
    IsValidIndex a (i : Int) = true := by
  have := (List.getElem?_eq_some_iff.mp h).1
  simp [IsValidIndex]; omega

/-- The specification's redirected value, in the shape the code computes it. -/
theorem RedirectedValue_eq (E : Engine) (idxs vals : List FJsonValue) (i : Nat) :
    Spec.RedirectedValue E idxs vals i
      = ((idxs[i]?).bind E.TryGetNumber_int32).bind fun index =>
          if IsValidIndex vals (if index = -1 then (i : Int) else index) then
            vals[(if index = -1 then (i : Int) else index).toNat]?
          else none := by
  have key : ∀ r : Int,
      (if (if r ≠ -1 then r else (i : Int)) < 0 ∨ (vals.length : Int) ≤ (if r ≠ -1 then r else (i : Int))
        then none else vals[(if r ≠ -1 then r else (i : Int)).toNat]?)
      = (if IsValidIndex vals (if r = -1 then (i : Int) else r) then
            vals[(if r = -1 then (i : Int) else r).toNat]?
          else none) := by
    intro r
    have e : (if r ≠ -1 then r else (i : Int)) = (if r = -1 then (i : Int) else r) := by
      split <;> simp_all
    rw [e]
    by_cases hv : IsValidIndex vals (if r = -1 then (i : Int) else r) = true
    · rw [if_pos hv, if_neg ((IsValidIndex_iff _ _).mp hv)]
    · rw [if_neg hv, if_pos]
      by_contra hcon
      exact hv ((IsValidIndex_iff _ _).mpr hcon)
  simp only [Spec.RedirectedValue, Spec.EffectiveIndex, Option.bind_eq_bind, key]
  cases idxs[i]? with
  | none => rfl
  | some r0 => rfl

theorem ScalarEntry_eq (E : Engine) (clamp : Nat) (params idxs vals : List FJsonValue) (i : Nat)
    (paramVal : FJsonValue) (st : SynthState) (hp : params[i]? = some paramVal) :
    ScalarEntry E clamp idxs vals i paramVal st
      = { EmitOpt E clamp (Spec.EntryAt E .Scalar [params, vals, idxs] i) st with
          y := (EmitOpt E clamp (Spec.EntryAt E .Scalar [params, vals, idxs] i) st).y + 16 * 6 } := by
  simp only [ScalarEntry, Spec.EntryAt, Spec.NameAt, RedirectedValue_eq, hp,
    Option.bind_eq_bind, Option.some_bind, Option.pure_def]
  cases hn : TryGetStringField E (AsObject paramVal) "Name" with
  | none => simp [EmitOpt]
  | some nm =>
    cases hr : (idxs[i]?).bind E.TryGetNumber_int32 with
    | none => simp [EmitOpt]
    | some r =>
      simp only [Option.some_bind]
      by_cases hv : IsValidIndex vals (if r = -1 then (i : Int) else r) = true
      · simp only [hv, if_true]
        cases hval : vals[(if r = -1 then (i : Int) else r).toNat]? with
        | none => simp [EmitOpt]
        | some v0 =>
          cases hf : E.TryGetNumber_float v0 with
          | none => simp [EmitOpt, hf]
          | some v => simp [EmitOpt, hf, Emit, LeafNodes, AddExpression]
      · simp [hv, EmitOpt]

theorem VectorEntry_eq (E : Engine) (clamp : Nat) (params idxs vals : List FJsonValue) (i : Nat)
    (paramVal : FJsonValue) (st : SynthState) (hp : params[i]? = some paramVal) :
    VectorEntry E clamp idxs vals i paramVal st
      = { EmitOpt E clamp (Spec.EntryAt E .Vector [params, vals, idxs] i) st with
          y := (EmitOpt E clamp (Spec.EntryAt E .Vector [params, vals, idxs] i) st).y + 16 * 13 } := by
  simp only [VectorEntry, Spec.EntryAt, Spec.NameAt, RedirectedValue_eq, hp,
    Option.bind_eq_bind, Option.some_bind, Option.pure_def]
  cases hn : TryGetStringField E (AsObject paramVal) "Name" with
  | none => simp [EmitOpt]
  | some nm =>
    cases hr : (idxs[i]?).bind E.TryGetNumber_int32 with
    | none => simp [EmitOpt]
    | some r =>
      simp only [Option.some_bind]
      by_cases hv : IsValidIndex vals (if r = -1 then (i : Int) else r) = true
      · simp only [hv, if_true]
        cases hval : vals[(if r = -1 then (i : Int) else r).toNat]? with
        | none => simp [EmitOpt]
        | some v0 =>
          cases ho : TryGetObject v0 with
          | none => simp [EmitOpt, ho]
          | some o =>
            simp only [Option.some_bind, ho, ReadLinearColor]
            cases TryGetNumberField_float E o "R" with
            | none => simp [EmitOpt]
            | some r =>
              cases TryGetNumberField_float E o "G" with
              | none => simp [EmitOpt]
              | some g =>
                cases TryGetNumberField_float E o "B" with
                | none => simp [EmitOpt]
                | some b =>
                  cases TryGetNumberField_float E o "A" with
                  | none => simp [EmitOpt]
                  | some a => simp [EmitOpt, Emit, LeafNodes, AddExpression]
      · simp [hv, EmitOpt]

theorem TextureEntry_eq (E : Engine) (clamp : Nat) (params vals : List FJsonValue) (i : Nat)
    (paramVal : FJsonValue) (st : SynthState) (hp : params[i]? = some paramVal)
    (hlen : params.length = vals.length) :
    TextureEntry E clamp vals i paramVal st
      = { EmitOpt E clamp (Spec.EntryAt E .Texture [params, vals] i) st with
          y := (EmitOpt E clamp (Spec.EntryAt E .Texture [params, vals] i) st).y + 16 * 8 * 2 } := by
  have hi : i < vals.length := hlen ▸ (List.getElem?_eq_some_iff.mp hp).1
  have hv : IsValidIndex vals (i : Int) = true := by simp [IsValidIndex]; omega
  simp only [TextureEntry, Spec.EntryAt, Spec.NameAt, Spec.ResolveTexture, hp, hv, if_true,
    Option.bind_eq_bind, Option.some_bind, Option.pure_def]
  cases hn : TryGetStringField E (AsObject paramVal) "Name" with
  | none => simp [EmitOpt]
  | some nm =>
    cases hval : vals[i]? with
    | none => simp [EmitOpt]
    | some v0 =>
      cases ho : TryGetObject v0 with
      | none => simp [EmitOpt, ho]
      | some o =>
        simp only [Option.some_bind, ho]
        cases TryGetStringField E o "AssetPathName" with
        | none => simp [EmitOpt]
        | some p =>
          cases TryGetStringField E o "SubPathString" with
          | none => simp [EmitOpt]
          | some q => simp [EmitOpt, Emit, LeafNodes, AddExpression]

theorem SwitchEntry_eq (E : Engine) (clamp : Nat) (params vals : List FJsonValue) (i : Nat)
    (paramVal : FJsonValue) (st : SynthState) (hp : params[i]? = some paramVal)
    (hlen : params.length = vals.length) :
    SwitchEntry E clamp vals i paramVal st
      = { EmitOpt E clamp (Spec.EntryAt E .Switch [params, vals] i) st with
          y := (EmitOpt E clamp (Spec.EntryAt E .Switch [params, vals] i) st).y + 16 * 9 } := by
  have hi : i < vals.length := hlen ▸ (List.getElem?_eq_some_iff.mp hp).1
  have hv : IsValidIndex vals (i : Int) = true := by simp [IsValidIndex]; omega
  simp only [SwitchEntry, Spec.EntryAt, Spec.NameAt, hp, hv, if_true,
    Option.bind_eq_bind, Option.some_bind, Option.pure_def]
  cases hn : TryGetStringField E (AsObject paramVal) "Name" with
  | none => simp [EmitOpt]
  | some nm =>
    cases hval : vals[i]? with
    | none => simp [EmitOpt]
    | some v0 =>
      cases hb : E.TryGetBool v0 with
      | none => simp [EmitOpt, hb]
      | some b => simp [EmitOpt, hb, Emit, LeafNodes, AddExpression]

theorem Rep_congr (E : Engine) (clamp : Nat) (pre : List UMaterialExpression) (bs : List Block)
    (st st2 : SynthState) (hE : st2.Expressions = st.Expressions) (hl : st2.lastAdd = st.lastAdd)
    (h : Rep E clamp pre bs st) : Rep E clamp pre bs st2 := by
  unfold Rep at h ⊢
  rw [hE, hl]; exact h

theorem Events_EmitOpt (E : Engine) (clamp : Nat) (en : Option Entry) (st : SynthState) :
    (EmitOpt E clamp en st).Events = st.Events := by
  cases en <;> rfl

/-- A loop whose body chains the valid entry of each position extends the rendered chain by
the valid entries of its positions, in order. -/
theorem ForEach_Rep (E : Engine) (clamp : Nat) (pre : List UMaterialExpression)
    (hc : clamp < pre.length) (body : Nat → FJsonValue → SynthState → SynthState)
    (params : List FJsonValue) (entryAt : Nat → Option Entry) (step : Int)
    (hbody : ∀ i paramVal st, params[i]? = some paramVal →
      body i paramVal st = { EmitOpt E clamp (entryAt i) st with
        y := (EmitOpt E clamp (entryAt i) st).y + step }) :
    ∀ (rest : List FJsonValue) (k : Nat) (bs : List Block) (st : SynthState),
      (∀ j, j < rest.length → rest[j]? = params[k + j]?) → Rep E clamp pre bs st →
      ∃ cs, Rep E clamp pre (bs ++ cs) (ForEach body k rest st)
        ∧ cs.map Block.entry = (List.range' k rest.length).filterMap entryAt
        ∧ (ForEach body k rest st).Events = st.Events := by
  intro rest
  induction rest with
  | nil =>
    intro k bs st _ h
    exact ⟨[], by simpa [ForEach] using h, by simp, rfl⟩
  | cons p rest ih =>
    intro k bs st hidx h
    have hp : params[k]? = some p := by
      have := hidx 0 (by simp)
      simpa using this.symm
    have hrest : ∀ j, j < rest.length → rest[j]? = params[k + 1 + j]? := by
      intro j hj
      have := hidx (j + 1) (by simp; omega)
      rw [List.getElem?_cons_succ] at this
      rw [this]; congr 1; omega
    simp only [ForEach, hbody k p st hp]
    cases hen : entryAt k with
    | none =>
      obtain ⟨cs, h1, h2, h3⟩ := ih (k + 1) bs
        { EmitOpt E clamp none st with y := (EmitOpt E clamp none st).y + step } hrest
        (Rep_congr E clamp pre bs st _ rfl rfl h)
      refine ⟨cs, h1, ?_, h3⟩
      simp [List.range', hen, h2]
    | some en =>
      have hE := Rep_Emit E clamp pre bs st en hc h
      obtain ⟨cs, h1, h2, h3⟩ := ih (k + 1) (bs ++ [⟨en, st.x, st.y⟩])
        { EmitOpt E clamp (some en) st with y := (EmitOpt E clamp (some en) st).y + step } hrest
        (Rep_congr E clamp pre _ (Emit E clamp en st) _ rfl rfl hE)
      refine ⟨⟨en, st.x, st.y⟩ :: cs, by simpa using h1, ?_, h3⟩
      simp [List.range', hen, h2]

/-- The loop from position 0 over the whole array. -/
theorem ForEach_Rep_all (E : Engine) (clamp : Nat) (pre : List UMaterialExpression)
    (hc : clamp < pre.length) (body : Nat → FJsonValue → SynthState → SynthState)
    (params : List FJsonValue) (entryAt : Nat → Option Entry) (step : Int)
    (hbody : ∀ i paramVal st, params[i]? = some paramVal →
      body i paramVal st = { EmitOpt E clamp (entryAt i) st with
        y := (EmitOpt E clamp (entryAt i) st).y + step })
    (bs : List Block) (st : SynthState) (h : Rep E clamp pre bs st) :
    ∃ cs, Rep E clamp pre (bs ++ cs) (ForEach body 0 params st)
      ∧ cs.map Block.entry = (List.range params.length).filterMap entryAt
      ∧ (ForEach body 0 params st).Events = st.Events := by
  have := ForEach_Rep E clamp pre hc body params entryAt step hbody params 0 bs st
    (by intro j _; simp) h
  rwa [← List.range_eq_range'] at this

theorem TryGetObjectField_eq (o : FJsonObject) (k : String) :
    TryGetObjectField o k = if HasTypedField_Object o k then some (GetObjectField o k) else none := by
  unfold TryGetObjectField HasTypedField_Object GetObjectField
  cases TryGetField o k with
  | none => rfl
  | some v => cases v <;> rfl

theorem TryGetArrayField_eq (o : FJsonObject) (k : String) :
    TryGetArrayField o k = if HasTypedField_Array o k then some (GetArrayField o k) else none := by
  unfold TryGetArrayField HasTypedField_Array GetArrayField
  cases TryGetField o k with
  | none => rfl
  | some v => cases v <;> rfl

theorem ScalarCategory_Rep (E : Engine) (clamp : Nat) (pre : List UMaterialExpression)
    (hc : clamp < pre.length) (C : FJsonObject) (bs : List Block) (st : SynthState)
    (h : Rep E clamp pre bs st) :
    ∃ cs, Rep E clamp pre (bs ++ cs) (ScalarCategory E clamp C st)
      ∧ cs.map Block.entry = Spec.CategoryEntries E .Scalar C
      ∧ (ScalarCategory E clamp C st).Events.any Event.isSave = st.Events.any Event.isSave := by
  unfold ScalarCategory Spec.CategoryEntries Spec.Category.Mismatched Spec.Category.Arrays
  simp only [Spec.Category.RuntimeEntries, Spec.Category.Values, Spec.Category.Redirection,
    TryGetObjectField_eq, TryGetArrayField_eq]
  cases h1 : HasTypedField_Object C "RuntimeEntries" <;>
  cases h2 : HasTypedField_Array (GetObjectField C "RuntimeEntries") "ParameterInfoSet" <;>
  cases h3 : HasTypedField_Array C "ScalarPrimitiveDataIndexValues" <;>
  cases h4 : HasTypedField_Array C "ScalarValues" <;>
  simp only [Bool.and_true, Bool.and_false, Bool.false_and, if_true, if_false, Bool.false_eq_true,
    Option.bind_eq_bind, Option.some_bind, Option.none_bind, h2] <;>
  try exact ⟨[], by simpa using h, rfl, trivial⟩
  by_cases hlen : (GetArrayField (GetObjectField C "RuntimeEntries") "ParameterInfoSet").length
        = (GetArrayField C "ScalarPrimitiveDataIndexValues").length ∧
      (GetArrayField (GetObjectField C "RuntimeEntries") "ParameterInfoSet").length
        = (GetArrayField C "ScalarValues").length
  · rw [if_pos hlen]
    obtain ⟨cs, r1, r2, r3⟩ := ForEach_Rep_all E clamp pre hc
      (ScalarEntry E clamp (GetArrayField C "ScalarPrimitiveDataIndexValues") (GetArrayField C "ScalarValues"))
      (GetArrayField (GetObjectField C "RuntimeEntries") "ParameterInfoSet")
      (Spec.EntryAt E .Scalar [GetArrayField (GetObjectField C "RuntimeEntries") "ParameterInfoSet",
        GetArrayField C "ScalarValues", GetArrayField C "ScalarPrimitiveDataIndexValues"])
      (16 * 6) (fun i paramVal st hp => ScalarEntry_eq E clamp _ _ _ i paramVal st hp) bs
      { st with y := st.y - 0, x := st.x - 16 * 8 * 3 } (Rep_congr E clamp pre bs st _ rfl rfl h)
    refine ⟨cs, r1, ?_, by rw [r3]⟩
    rw [r2]
    simp [hlen.1.symm, hlen.2.symm]
  · rw [if_neg hlen]
    refine ⟨[], by simpa using h, ?_, rfl⟩
    have : ¬ ((GetArrayField C "ScalarValues").length
          = (GetArrayField (GetObjectField C "RuntimeEntries") "ParameterInfoSet").length ∧
        (GetArrayField C "ScalarPrimitiveDataIndexValues").length
          = (GetArrayField (GetObjectField C "RuntimeEntries") "ParameterInfoSet").length) := by
      intro hcon; exact hlen ⟨hcon.2.symm, hcon.1.symm⟩
    simp [this]

theorem VectorCategory_Rep (E : Engine) (clamp : Nat) (pre : List UMaterialExpression)
    (hc : clamp < pre.length) (C : FJsonObject) (bs : List Block) (st : SynthState)
    (h : Rep E clamp pre bs st) :
    ∃ cs, Rep E clamp pre (bs ++ cs) (VectorCategory E clamp C st)
      ∧ cs.map Block.entry = Spec.CategoryEntries E .Vector C
      ∧ (VectorCategory E clamp C st).Events.any Event.isSave = st.Events.any Event.isSave := by
  unfold VectorCategory Spec.CategoryEntries Spec.Category.Mismatched Spec.Category.Arrays
  simp only [Spec.Category.RuntimeEntries, Spec.Category.Values, Spec.Category.Redirection,
    TryGetObjectField_eq, TryGetArrayField_eq]
  cases h1 : HasTypedField_Object C "RuntimeEntries[1]" <;>
  cases h2 : HasTypedField_Array (GetObjectField C "RuntimeEntries[1]") "ParameterInfoSet" <;>
  cases h3 : HasTypedField_Array C "VectorPrimitiveDataIndexValues" <;>
  cases h4 : HasTypedField_Array C "VectorValues" <;>
  simp only [Bool.and_true, Bool.and_false, Bool.false_and, if_true, if_false, Bool.false_eq_true,
    Option.bind_eq_bind, Option.some_bind, Option.none_bind, h2] <;>
  try exact ⟨[], by simpa using h, rfl, trivial⟩
  by_cases hlen : (GetArrayField (GetObjectField C "RuntimeEntries[1]") "ParameterInfoSet").length
        = (GetArrayField C "VectorPrimitiveDataIndexValues").length ∧
      (GetArrayField (GetObjectField C "RuntimeEntries[1]") "ParameterInfoSet").length
        = (GetArrayField C "VectorValues").length
  · rw [if_pos hlen]
    obtain ⟨cs, r1, r2, r3⟩ := ForEach_Rep_all E clamp pre hc
      (VectorEntry E clamp (GetArrayField C "VectorPrimitiveDataIndexValues") (GetArrayField C "VectorValues"))
      (GetArrayField (GetObjectField C "RuntimeEntries[1]") "ParameterInfoSet")
      (Spec.EntryAt E .Vector [GetArrayField (GetObjectField C "RuntimeEntries[1]") "ParameterInfoSet",
        GetArrayField C "VectorValues", GetArrayField C "VectorPrimitiveDataIndexValues"])
      (16 * 13) (fun i paramVal st hp => VectorEntry_eq E clamp _ _ _ i paramVal st hp) bs
      { st with x := st.x - 16 * 8 * 4, y := 0 } (Rep_congr E clamp pre bs st _ rfl rfl h)
    refine ⟨cs, r1, ?_, by rw [r3]⟩
    rw [r2]
    simp [hlen.1.symm, hlen.2.symm]
  · rw [if_neg hlen]
    refine ⟨[], by simpa using h, ?_, rfl⟩
    have : ¬ ((GetArrayField C "VectorValues").length
          = (GetArrayField (GetObjectField C "RuntimeEntries[1]") "ParameterInfoSet").length ∧
        (GetArrayField C "VectorPrimitiveDataIndexValues").length
          = (GetArrayField (GetObjectField C "RuntimeEntries[1]") "ParameterInfoSet").length) := by
      intro hcon; exact hlen ⟨hcon.2.symm, hcon.1.symm⟩
    simp [this]

theorem Events_LoadReferencedTextures (C : FJsonObject) (st : SynthState) :
    (LoadReferencedTextures C st).Events.any Event.isSave = st.Events.any Event.isSave := by
  unfold LoadReferencedTextures
  split
  · simp [List.any_append, List.any_map, Event.isSave, Function.comp_def]
  · rfl

theorem TextureCategory_Rep (E : Engine) (clamp : Nat) (pre : List UMaterialExpression)
    (hc : clamp < pre.length) (C : FJsonObject) (bs : List Block) (st : SynthState)
    (h : Rep E clamp pre bs st) :
    ∃ cs, Rep E clamp pre (bs ++ cs) (TextureCategory E clamp C st)
      ∧ cs.map Block.entry = Spec.CategoryEntries E .Texture C
      ∧ (TextureCategory E clamp C st).Events.any Event.isSave = st.Events.any Event.isSave := by
  unfold TextureCategory Spec.CategoryEntries Spec.Category.Mismatched Spec.Category.Arrays
  simp only [Spec.Category.RuntimeEntries, Spec.Category.Values, Spec.Category.Redirection,
    TryGetObjectField_eq, TryGetArrayField_eq]
  cases h1 : HasTypedField_Object C "RuntimeEntries[3]" <;>
  cases h2 : HasTypedField_Array (GetObjectField C "RuntimeEntries[3]") "ParameterInfoSet" <;>
  cases h4 : HasTypedField_Array C "TextureValues" <;>
  simp only [Bool.and_true, Bool.and_false, Bool.false_and, if_true, if_false, Bool.false_eq_true,
    Option.bind_eq_bind, Option.some_bind, Option.none_bind, h2] <;>
  try exact ⟨[], by simpa using h, rfl, trivial⟩
  by_cases hlen : (GetArrayField (GetObjectField C "RuntimeEntries[3]") "ParameterInfoSet").length
        = (GetArrayField C "TextureValues").length
  · rw [if_pos hlen]
    obtain ⟨cs, r1, r2, r3⟩ := ForEach_Rep_all E clamp pre hc
      (TextureEntry E clamp (GetArrayField C "TextureValues"))
      (GetArrayField (GetObjectField C "RuntimeEntries[3]") "ParameterInfoSet")
      (Spec.EntryAt E .Texture [GetArrayField (GetObjectField C "RuntimeEntries[3]") "ParameterInfoSet",
        GetArrayField C "TextureValues"])
      (16 * 8 * 2) (fun i paramVal st hp => TextureEntry_eq E clamp _ _ i paramVal st hp hlen) bs
      (LoadReferencedTextures C { st with x := st.x - 16 * 8 * 4, y := 0 })
      (Rep_congr E clamp pre bs st _ (by unfold LoadReferencedTextures; split <;> rfl)
        (by unfold LoadReferencedTextures; split <;> rfl) h)
    refine ⟨cs, r1, ?_, by rw [r3, Events_LoadReferencedTextures]⟩
    rw [r2]
    simp [hlen.symm]
  · rw [if_neg hlen]
    refine ⟨[], by simpa using h, ?_, rfl⟩
    have : ¬ ((GetArrayField C "TextureValues").length
          = (GetArrayField (GetObjectField C "RuntimeEntries[3]") "ParameterInfoSet").length) := by
      intro hcon; exact hlen hcon.symm
    simp [this]

theorem SwitchCategory_Rep (E : Engine) (clamp : Nat) (pre : List UMaterialExpression)
    (hc : clamp < pre.length) (C : FJsonObject) (bs : List Block) (st : SynthState)
    (h : Rep E clamp pre bs st) :
    ∃ cs, Rep E clamp pre (bs ++ cs) (SwitchCategory E clamp C st)
      ∧ cs.map Block.entry = Spec.CategoryEntries E .Switch C
      ∧ (SwitchCategory E clamp C st).Events.any Event.isSave = st.Events.any Event.isSave := by
  unfold SwitchCategory Spec.CategoryEntries Spec.Category.Mismatched Spec.Category.Arrays
  simp only [Spec.Category.RuntimeEntries, Spec.Category.Values, Spec.Category.Redirection,
    TryGetObjectField_eq, TryGetArrayField_eq]
  cases h1 : HasTypedField_Object C "RuntimeEntries[7]" <;>
  cases h2 : HasTypedField_Array (GetObjectField C "RuntimeEntries[7]") "ParameterInfoSet" <;>
  cases h4 : HasTypedField_Array C "StaticSwitchValues" <;>
  simp only [Bool.and_true, Bool.and_false, Bool.false_and, if_true, if_false, Bool.false_eq_true,
    Option.bind_eq_bind, Option.some_bind, Option.none_bind, h2] <;>
  try exact ⟨[], by simpa using h, rfl, trivial⟩
  by_cases hlen : (GetArrayField (GetObjectField C "RuntimeEntries[7]") "ParameterInfoSet").length
        = (GetArrayField C "StaticSwitchValues").length
  · rw [if_pos hlen]
    obtain ⟨cs, r1, r2, r3⟩ := ForEach_Rep_all E clamp pre hc
      (SwitchEntry E clamp (GetArrayField C "StaticSwitchValues"))
      (GetArrayField (GetObjectField C "RuntimeEntries[7]") "ParameterInfoSet")
      (Spec.EntryAt E .Switch [GetArrayField (GetObjectField C "RuntimeEntries[7]") "ParameterInfoSet",
        GetArrayField C "StaticSwitchValues"])
      (16 * 9) (fun i paramVal st hp => SwitchEntry_eq E clamp _ _ i paramVal st hp hlen) bs
      { st with x := st.x - 16 * 8 * 4, y := 0 } (Rep_congr E clamp pre bs st _ rfl rfl h)
    refine ⟨cs, r1, ?_, by rw [r3]⟩
    rw [r2]
    simp [hlen.symm]
  · rw [if_neg hlen]
    refine ⟨[], by simpa using h, ?_, rfl⟩
    have : ¬ ((GetArrayField C "StaticSwitchValues").length
          = (GetArrayField (GetObjectField C "RuntimeEntries[7]") "ParameterInfoSet").length) := by
      intro hcon; exact hlen hcon.symm
    simp [this]

/-- The parameter-recreation region chains the valid entries of the snapshot, in order,
behind the nodes that precede it. -/
theorem ParamRecreation_Rep (E : Engine) (clamp : Nat) (pre : List UMaterialExpression)
    (hc : clamp < pre.length) (C : FJsonObject) (st : SynthState)
    (h : Rep E clamp pre [] st) :
    ∃ bs, Rep E clamp pre bs (ParamRecreation E clamp C st)
      ∧ bs.map Block.entry = Spec.ValidEntries E C
      ∧ (ParamRecreation E clamp C st).Events.any Event.isSave = st.Events.any Event.isSave := by
  obtain ⟨c1, r1, e1, v1⟩ := ScalarCategory_Rep E clamp pre hc C [] st h
  obtain ⟨c2, r2, e2, v2⟩ := VectorCategory_Rep E clamp pre hc C _ _ r1
  obtain ⟨c3, r3, e3, v3⟩ := TextureCategory_Rep E clamp pre hc C _ _ r2
  obtain ⟨c4, r4, e4, v4⟩ := SwitchCategory_Rep E clamp pre hc C _ _ r3
  refine ⟨[] ++ c1 ++ c2 ++ c3 ++ c4, r4, ?_, ?_⟩
  · simp [Spec.ValidEntries, e1, e2, e3, e4]
  · unfold ParamRecreation
    rw [v4, v3, v2, v1]

theorem ModifyLast_snoc {α : Type} (f : α → α) (l : List α) (a : α) :
    ModifyLast f (l ++ [a]) = l ++ [f a] := by
  induction l with
  | nil => rfl
  | cons b rest ih =>
    cases rest with
    | nil => rfl
    | cons c rest2 =>
      show b :: ModifyLast f ((c :: rest2) ++ [a]) = _
      rw [ih]; rfl

theorem Expressions_SetRootExpression (Material : UMaterial) (p : EMaterialProperty) (e : Nat) :
    (Material.SetRootExpression p e).Expressions = Material.Expressions := by
  cases p <;> rfl

theorem BindMaterialAttributes_eq (E : Engine) (Material : UMaterial) :
    BindMaterialAttributes E Material 0
      = ({ Material.SetRootExpression .MP_MaterialAttributes Material.Expressions.length with
            Expressions := Material.Expressions ++
              [.SetMaterialAttributes (AggregationNode E Material none)] },
          0 - 16 * 8 * 2, .LastInputOf Material.Expressions.length) := by
  simp only [BindMaterialAttributes, AggregationNode, ModifyLast_snoc]

theorem AssignMatInput_LastInputOf (M : UMaterial) (L : List UMaterialExpression)
    (s : UMaterialExpressionSetMaterialAttributes) (c : UMaterialExpression) (e : Nat)
    (hM : M.Expressions = L ++ [.SetMaterialAttributes s, c]) :
    AssignMatInput M (.LastInputOf L.length) e
      = { M with Expressions := L ++ [.SetMaterialAttributes
            { s with Inputs := ModifyLast (fun Input => { Input with Expression := some e }) s.Inputs }, c] } := by
  have h0 : (L ++ [UMaterialExpression.SetMaterialAttributes s, c])[L.length]?
      = some (UMaterialExpression.SetMaterialAttributes s) := by
    rw [List.getElem?_append_right (Nat.le_refl _)]; simp
  simp only [AssignMatInput, hM, h0]
  simp [List.set_append]

/-- What the Output Binder leaves in the collection, and where the clamp is. -/
theorem BindOutput_Expressions (E : Engine) (Material : UMaterial) :
    (BindOutput E Material).1.Expressions = Material.Expressions ++ Prelude E Material none
      ∧ (BindOutput E Material).2.2.1 = (Material.Expressions ++ Prelude E Material none).length - 1 := by
  unfold BindOutput Prelude
  cases hb : Material.bUseMaterialAttributes with
  | false =>
    simp [AssignMatInput, Expressions_SetRootExpression, Link]
  | true =>
    simp only [BindMaterialAttributes_eq, if_true]
    rw [AssignMatInput_LastInputOf _ Material.Expressions (AggregationNode E Material none)
      (.Clamp { MaterialExpressionEditorX := 0 - 16 * 8 * 2 - 16 * 8 * 2 + 16 * 4,
                MaterialExpressionEditorY := 0, MinDefault := 0, MaxDefault := 1 }) _
      (by simp)]
    simp [AggregationNode, ModifyLast_snoc, Link]

theorem length_Prelude_pos (E : Engine) (M : UMaterial) (o : Option Nat) :
    0 < (Prelude E M o).length := by
  unfold Prelude; split <;> simp

theorem length_Prelude (E : Engine) (M : UMaterial) (o : Option Nat) :
    (Prelude E M o).length = (Prelude E M none).length := by
  unfold Prelude; split <;> simp

theorem ConnectFirst_Prelude (E : Engine) (M : UMaterial) (o : Option Nat) :
    ConnectFirst (M.Expressions ++ Prelude E M none)
        ((M.Expressions ++ Prelude E M none).length - 1) o
      = M.Expressions ++ Prelude E M o := by
  cases o with
  | none => rfl
  | some a =>
    unfold ConnectFirst ConnectClampInput Prelude
    cases hb : M.bUseMaterialAttributes with
    | false =>
      have h0 : ∀ c : UMaterialExpression, (M.Expressions ++ [c])[M.Expressions.length]? = some c := by
        intro c; rw [List.getElem?_append_right (Nat.le_refl _)]; simp
      simp [h0, List.set_append, Link, FExpressionInput.Connect]
    | true =>
      have h0 : ∀ s c : UMaterialExpression,
          (M.Expressions ++ [s, c])[M.Expressions.length + 1]? = some c := by
        intro s c; rw [List.getElem?_append_right (by omega)]; simp
      simp [h0, List.set_append, Link, FExpressionInput.Connect]

/-- The closed form of the graph the fallback block builds: the nodes of the Output Binder,
the clamp fed by the first merge node, followed by the rendered chain of the valid entries. -/
theorem SynthesizeFallback_closed (E : Engine) (C : FJsonObject) (M : UMaterial) (ev : List Event) :
    ∃ bs, bs.map Block.entry = Spec.ValidEntries E C ∧
      (SynthesizeFallback E C M ev).1 =
        { (BindOutput E M).1 with
          Expressions := M.Expressions ++
            Prelude E M (NextAdd (M.Expressions.length + (Prelude E M none).length) bs none) ++
            Render E (M.Expressions.length + (Prelude E M none).length) bs none } ∧
      (SynthesizeFallback E C M ev).2.any Event.isSave = ev.any Event.isSave := by
  obtain ⟨hE, hclamp⟩ := BindOutput_Expressions E M
  have hpos := length_Prelude_pos E M none
  have hc : (BindOutput E M).2.2.1 < (M.Expressions ++ Prelude E M none).length := by
    rw [hclamp, List.length_append]; omega
  obtain ⟨bs, hrep, hent, hev⟩ := ParamRecreation_Rep E (BindOutput E M).2.2.1
    (M.Expressions ++ Prelude E M none) hc C
    { Expressions := (BindOutput E M).1.Expressions, lastAdd := none, x := (BindOutput E M).2.1,
      y := 0, Events := ev }
    ⟨by simp [hE, ConnectFirst, NextAdd, Render], rfl⟩
  refine ⟨bs, hent, ?_, ?_⟩
  · have h1 := hrep.1
    simp only [hclamp, ConnectFirst_Prelude, List.length_append] at h1
    have h2 := ConnectFirst_Prelude E M
      (NextAdd (M.Expressions.length + (Prelude E M none).length) bs none)
    rw [List.length_append] at h2
    unfold SynthesizeFallback
    simp only [hclamp, List.length_append, h1, h2]
  · unfold SynthesizeFallback
    simpa using hev

theorem Link_Expression (o : Option Nat) : (Link o).Expression = o := by
  cases o <;> rfl

theorem NodesFrom_append (p : UMaterialExpression → Bool) (L M : List UMaterialExpression) :
    ∀ i, NodesFrom p i (L ++ M) = NodesFrom p i L ++ NodesFrom p (i + L.length) M := by
  induction L with
  | nil => intro i; simp [NodesFrom]
  | cons e rest ih =>
    intro i
    have : i + 1 + rest.length = i + (rest.length + 1) := by omega
    show NodesFrom p i (e :: (rest ++ M)) = _
    simp only [NodesFrom, List.length_cons]
    rw [ih (i + 1), this]
    split <;> simp

theorem NodesFrom_eq_nil (p : UMaterialExpression → Bool) (L : List UMaterialExpression)
    (h : ∀ e ∈ L, p e = false) : ∀ i, NodesFrom p i L = [] := by
  induction L with
  | nil => intro i; rfl
  | cons e rest ih =>
    intro i
    simp only [NodesFrom, h e (List.mem_cons_self _ _), Bool.false_eq_true, if_false]
    exact ih (fun e he => h e (List.mem_cons_of_mem _ he)) _

theorem LeafNodes_kind (E : Engine) (x y : Int) (n : Nat) (en : Entry)
    (W : List UMaterialExpression) :
    ∀ e ∈ LeafNodes E x y n en,
      IsAdd e = false ∧ IsClamp e = false ∧ IsSetMaterialAttributes e = false
        ∧ MergeLeafOf W e = none := by
  intro e he
  cases en with
  | scalar nm v =>
    simp only [LeafNodes, List.mem_singleton] at he
    subst he; exact ⟨rfl, rfl, rfl, rfl⟩
  | vector nm v =>
    simp only [LeafNodes, List.mem_singleton] at he
    subst he; exact ⟨rfl, rfl, rfl, rfl⟩
  | texture nm v =>
    simp only [LeafNodes, List.mem_singleton] at he
    subst he; exact ⟨rfl, rfl, rfl, rfl⟩
  | switch nm v =>
    simp only [LeafNodes, List.mem_cons, List.mem_singleton, List.not_mem_nil, or_false] at he
    rcases he with he | he <;> subst he <;> exact ⟨rfl, rfl, rfl, rfl⟩

theorem NodesFrom_IsAdd_Render (E : Engine) (bs : List Block) : ∀ (n : Nat) (t : Option Nat),
    NodesFrom IsAdd n (Render E n bs t) = AddPositions n bs := by
  induction bs with
  | nil => intro n t; rfl
  | cons b rest ih =>
    intro n t
    have hl := length_LeafNodes E b n
    have hp := b.Size_pos
    simp only [Render, AddPositions, NodesFrom_append]
    rw [NodesFrom_eq_nil IsAdd _ (fun e he => (LeafNodes_kind E _ _ _ _ [] e he).1)]
    simp only [NodesFrom, Block.AddNode, IsAdd, if_true, List.nil_append]
    have e1 : n + (LeafNodes E b.x b.y n b.entry).length = n + b.Size - 1 := by omega
    have e2 : n + (LeafNodes E b.x b.y n b.entry).length + 1 = n + b.Size := by omega
    rw [e2, ih, e1]

theorem NodesFrom_Render_nil (E : Engine) (p : UMaterialExpression → Bool)
    (hp : ∀ e, IsAdd e = true → p e = false)
    (hl : ∀ x y n en, ∀ e ∈ LeafNodes E x y n en, p e = false)
    (bs : List Block) : ∀ (n i : Nat) (t : Option Nat),
    NodesFrom p i (Render E n bs t) = [] := by
  induction bs with
  | nil => intro n i t; rfl
  | cons b rest ih =>
    intro n i t
    simp only [Render, NodesFrom_append]
    rw [NodesFrom_eq_nil p _ (hl _ _ _ _)]
    simp only [NodesFrom, Block.AddNode, hp _ (rfl : IsAdd (.Add _) = true), Bool.false_eq_true,
      if_false, List.nil_append, ih]

/-- The leaf a rendered block's merge node is fed by carries the block's entry. -/
theorem LeafOf_block (E : Engine) (b : Block) (P R : List UMaterialExpression) :
    LeafOf (P ++ (LeafNodes E b.x b.y P.length b.entry ++ R))
      (({} : FExpressionInput).Connect 0 (P.length + b.Size - 2)) = some b.entry := by
  obtain ⟨en, x, y⟩ := b
  cases en with
  | scalar nm v =>
    have : P.length + 2 - 2 = P.length := by omega
    simp [LeafOf, FExpressionInput.Connect, Block.Size, LeafNodes, this,
      List.getElem?_append_right (Nat.le_refl _)]
  | vector nm v =>
    have : P.length + 2 - 2 = P.length := by omega
    simp [LeafOf, FExpressionInput.Connect, Block.Size, LeafNodes, this,
      List.getElem?_append_right (Nat.le_refl _)]
  | texture nm v =>
    have : P.length + 2 - 2 = P.length := by omega
    simp [LeafOf, FExpressionInput.Connect, Block.Size, LeafNodes, this,
      List.getElem?_append_right (Nat.le_refl _)]
  | switch nm v =>
    have : P.length + 3 - 2 = P.length + 1 := by omega
    simp [LeafOf, FExpressionInput.Connect, Block.Size, LeafNodes, this,
      List.getElem?_append_right (Nat.le_refl _),
      List.getElem?_append_right (show P.length ≤ P.length + 1 by omega)]

theorem filterMap_eq_nil_of {α β : Type} (f : α → Option β) (l : List α)
    (h : ∀ a ∈ l, f a = none) : l.filterMap f = [] := by
  induction l with
  | nil => rfl
  | cons a rest ih =>
    simp only [List.filterMap_cons, h a (List.mem_cons_self _ _)]
    exact ih (fun b hb => h b (List.mem_cons_of_mem _ hb))

/-- Read inside any graph that contains it at its layout position, a rendered chain shows the
entries of its blocks, in order. -/
theorem MergeLeaves_Render (E : Engine) (bs : List Block) :
    ∀ (P Q : List UMaterialExpression) (t : Option Nat),
      (Render E P.length bs t).filterMap (MergeLeafOf (P ++ Render E P.length bs t ++ Q))
        = bs.map fun b => some b.entry := by
  induction bs with
  | nil => intro P Q t; rfl
  | cons b rest ih =>
    intro P Q t
    have hl := length_LeafNodes E b P.length
    have hW : P ++ Render E P.length (b :: rest) t ++ Q
        = (P ++ (LeafNodes E b.x b.y P.length b.entry ++
            [b.AddNode P.length (NextAdd (P.length + b.Size) rest t)])) ++
          Render E (P ++ (LeafNodes E b.x b.y P.length b.entry ++
            [b.AddNode P.length (NextAdd (P.length + b.Size) rest t)])).length rest t ++ Q := by
      simp only [Render, List.length_append, List.length_cons, List.length_nil, List.append_assoc,
        List.singleton_append]
      have : P.length + ((LeafNodes E b.x b.y P.length b.entry).length + (0 + 1)) = P.length + b.Size := by
        omega
      rw [this]
    have hlen : (P ++ (LeafNodes E b.x b.y P.length b.entry ++
            [b.AddNode P.length (NextAdd (P.length + b.Size) rest t)])).length = P.length + b.Size := by
      simp only [List.length_append, List.length_cons, List.length_nil]; omega
    have hrest := ih (P ++ (LeafNodes E b.x b.y P.length b.entry ++
            [b.AddNode P.length (NextAdd (P.length + b.Size) rest t)])) Q t
    rw [← hW, hlen] at hrest
    have hleaf : MergeLeafOf (P ++ Render E P.length (b :: rest) t ++ Q)
        (b.AddNode P.length (NextAdd (P.length + b.Size) rest t)) = some (some b.entry) := by
      have := LeafOf_block E b P
        (b.AddNode P.length (NextAdd (P.length + b.Size) rest t) :: Render E (P.length + b.Size) rest t ++ Q)
      simp only [MergeLeafOf, Block.AddNode, Render, List.append_assoc, List.cons_append] at this ⊢
      rw [this]
    generalize P ++ Render E P.length (b :: rest) t ++ Q = W at hleaf hrest ⊢
    show (LeafNodes E b.x b.y P.length b.entry ++
      b.AddNode P.length (NextAdd (P.length + b.Size) rest t) ::
        Render E (P.length + b.Size) rest t).filterMap (MergeLeafOf W) = _
    rw [List.filterMap_append, filterMap_eq_nil_of _ _ (fun e he => (LeafNodes_kind E _ _ _ _ W e he).2.2.2),
      List.nil_append, List.filterMap_cons, hleaf, hrest]
    rfl

/-- In a graph that contains a rendered chain at its layout position, the second input of the
`k`-th merge node of the chain is fed by the `k+1`-th one, that of the last one by `t`. -/
theorem SecondInput_Render (E : Engine) (bs : List Block) :
    ∀ (P Q : List UMaterialExpression) (t : Option Nat) (k a : Nat),
      (AddPositions P.length bs)[k]? = some a →
      SecondInput (P ++ Render E P.length bs t ++ Q) a
        = ((AddPositions P.length bs)[k + 1]? <|> t) := by
  induction bs with
  | nil => intro P Q t k a h; simp [AddPositions] at h
  | cons b rest ih =>
    intro P Q t k a h
    have hl := length_LeafNodes E b P.length
    have hp := b.Size_pos
    cases k with
    | zero =>
      simp only [AddPositions, List.getElem?_cons_zero, Option.some.injEq] at h
      subst h
      have hidx : (P ++ Render E P.length (b :: rest) t ++ Q)[P.length + b.Size - 1]?
          = some (b.AddNode P.length (NextAdd (P.length + b.Size) rest t)) := by
        simp only [Render, List.append_assoc]
        rw [List.getElem?_append_right (by omega),
          List.getElem?_append_right (by omega)]
        have : P.length + b.Size - 1 - P.length - (LeafNodes E b.x b.y P.length b.entry).length = 0 := by
          omega
        rw [this]; simp
      simp only [SecondInput, hidx, Block.AddNode, Link_Expression, AddPositions,
        List.getElem?_cons_succ]
      cases rest with
      | nil => simp [NextAdd, AddPositions]
      | cons c rest2 => simp [NextAdd, AddPositions]
    | succ k =>
      simp only [AddPositions, List.getElem?_cons_succ] at h ⊢
      have hlen : (P ++ (LeafNodes E b.x b.y P.length b.entry ++
            [b.AddNode P.length (NextAdd (P.length + b.Size) rest t)])).length = P.length + b.Size := by
        simp only [List.length_append, List.length_cons, List.length_nil]; omega
      have := ih (P ++ (LeafNodes E b.x b.y P.length b.entry ++
            [b.AddNode P.length (NextAdd (P.length + b.Size) rest t)])) Q t k a (by rw [hlen]; exact h)
      rw [hlen] at this
      rw [← this]
      simp [Render]

theorem AddPositions_length (bs : List Block) : ∀ n, (AddPositions n bs).length = bs.length := by
  induction bs with
  | nil => intro n; rfl
  | cons b rest ih => intro n; simp [AddPositions, ih]

theorem AddPositions_head (bs : List Block) (n : Nat) :
    (AddPositions n bs).head? = NextAdd n bs none := by
  cases bs <;> rfl

/-- In a graph that contains a rendered chain at its layout position, the first input of
every merge node of the chain is fed by the node created just before it. -/
theorem FirstInput_Render (E : Engine) (bs : List Block) :
    ∀ (P Q : List UMaterialExpression) (t : Option Nat) (k a : Nat),
      (AddPositions P.length bs)[k]? = some a →
      FirstInput (P ++ Render E P.length bs t ++ Q) a = some (a - 1) := by
  induction bs with
  | nil => intro P Q t k a h; simp [AddPositions] at h
  | cons b rest ih =>
    intro P Q t k a h
    have hl := length_LeafNodes E b P.length
    have hp := b.Size_pos
    cases k with
    | zero =>
      simp only [AddPositions, List.getElem?_cons_zero, Option.some.injEq] at h
      subst h
      have hidx : (P ++ Render E P.length (b :: rest) t ++ Q)[P.length + b.Size - 1]?
          = some (b.AddNode P.length (NextAdd (P.length + b.Size) rest t)) := by
        simp only [Render, List.append_assoc]
        rw [List.getElem?_append_right (by omega),
          List.getElem?_append_right (by omega)]
        have : P.length + b.Size - 1 - P.length - (LeafNodes E b.x b.y P.length b.entry).length = 0 := by
          omega
        rw [this]; simp
      simp only [FirstInput, hidx, Block.AddNode, FExpressionInput.Connect, Option.some.injEq]
      omega
    | succ k =>
      simp only [AddPositions, List.getElem?_cons_succ] at h
      have hlen : (P ++ (LeafNodes E b.x b.y P.length b.entry ++
            [b.AddNode P.length (NextAdd (P.length + b.Size) rest t)])).length = P.length + b.Size := by
        simp only [List.length_append, List.length_cons, List.length_nil]; omega
      have := ih (P ++ (LeafNodes E b.x b.y P.length b.entry ++
            [b.AddNode P.length (NextAdd (P.length + b.Size) rest t)])) Q t k a (by rw [hlen]; exact h)
      rw [hlen] at this
      rw [← this]
      simp [Render]

theorem Expressions_ReadShadingModels (E : Engine) (AssetData : FJsonObject) (M : UMaterial) :
    (ReadShadingModels E AssetData M).Expressions = M.Expressions
    ∧ (ReadShadingModels E AssetData M).bUseMaterialAttributes = M.bUseMaterialAttributes
    ∧ (ReadShadingModels E AssetData M).MaterialDomain = M.MaterialDomain
    ∧ (ReadShadingModels E AssetData M).EmissiveColor = M.EmissiveColor
    ∧ (ReadShadingModels E AssetData M).BaseColor = M.BaseColor
    ∧ (ReadShadingModels E AssetData M).WorldPositionOffset = M.WorldPositionOffset
    ∧ (ReadShadingModels E AssetData M).MaterialAttributes = M.MaterialAttributes := by
  unfold ReadShadingModels
  split
  · exact ⟨rfl, rfl, rfl, rfl, rfl, rfl, rfl⟩
  · split <;> exact ⟨rfl, rfl, rfl, rfl, rfl, rfl, rfl⟩

/-- The graph of the fallback path in closed form. -/
theorem FallbackGraph_closed (E : Engine) (S : ImporterState) (Material : UMaterial) :
    ∃ bs, bs.map Block.entry = Spec.ValidEntries E S.CachedExpressionData ∧
      (FallbackGraph E { bSkipResultNodeConnection := false } S (ClearExpressions Material)).1 =
        { (BindOutput E (ReadShadingModels E S.AssetData (ClearExpressions Material))).1 with
          Expressions :=
            Prelude E (ReadShadingModels E S.AssetData (ClearExpressions Material))
              (NextAdd (Prelude E (ReadShadingModels E S.AssetData (ClearExpressions Material)) none).length
                bs none) ++
            Render E (Prelude E (ReadShadingModels E S.AssetData (ClearExpressions Material)) none).length
              bs none } ∧
      (FallbackGraph E { bSkipResultNodeConnection := false } S (ClearExpressions Material)).2.any
        Event.isSave = false := by
  have hM : (ReadShadingModels E S.AssetData (ClearExpressions Material)).Expressions = [] := by
    rw [(Expressions_ReadShadingModels E S.AssetData _).1]; rfl
  obtain ⟨bs, h1, h2, h3⟩ := SynthesizeFallback_closed E S.CachedExpressionData
    (ReadShadingModels E S.AssetData (ClearExpressions Material))
    [Event.SpawnMaterialDataMissingNotification]
  refine ⟨bs, h1, ?_, ?_⟩
  · simp only [FallbackGraph, Bool.not_false, if_true, h2, hM, List.nil_append, List.length_nil,
      Nat.zero_add]
  · simp only [FallbackGraph, Bool.not_false, if_true, h3]
    rfl

theorem Prelude_no_merge (E : Engine) (M : UMaterial) (o : Option Nat)
    (W : List UMaterialExpression) :
    ∀ e ∈ Prelude E M o, MergeLeafOf W e = none ∧ IsAdd e = false := by
  intro e he
  unfold Prelude at he
  split at he
  · simp only [List.mem_cons, List.mem_singleton, List.not_mem_nil, or_false] at he
    rcases he with he | he <;> subst he <;> exact ⟨rfl, rfl⟩
  · simp only [List.mem_singleton] at he
    subst he; exact ⟨rfl, rfl⟩

/-- The shape of the graph of the fallback path: the nodes of the Output Binder followed by
the rendered chain of the valid entries of the snapshot. -/
theorem FallbackMaterial_shape (E : Engine) (S : ImporterState) (Material : UMaterial) :
    ∃ bs P, bs.map Block.entry = Spec.ValidEntries E S.CachedExpressionData
      ∧ P = Prelude E (BinderInput E S Material) (NextAdd P.length bs none)
      ∧ FallbackMaterial E S Material
          = { (BindOutput E (BinderInput E S Material)).1 with
              Expressions := P ++ Render E P.length bs none } := by
  obtain ⟨bs, h1, h2, _⟩ := FallbackGraph_closed E S Material
  refine ⟨bs, Prelude E (BinderInput E S Material)
    (NextAdd (Prelude E (BinderInput E S Material) none).length bs none), h1, ?_, ?_⟩
  · rw [length_Prelude E _ (NextAdd _ bs none)]
  · rw [length_Prelude E _ (NextAdd _ bs none)]
    exact h2

theorem NodesWhere_IsAdd_shape (E : Engine) (M : UMaterial) (o : Option Nat) (bs : List Block)
    (t : Option Nat) :
    NodesWhere IsAdd (Prelude E M o ++ Render E (Prelude E M o).length bs t)
      = AddPositions (Prelude E M o).length bs := by
  unfold NodesWhere
  rw [NodesFrom_append, NodesFrom_eq_nil IsAdd _ (fun e he => (Prelude_no_merge E M o [] e he).2),
    Nat.zero_add, NodesFrom_IsAdd_Render, List.nil_append]

/-- Claim C4: for every parameter snapshot the merge nodes of the fallback graph, in creation
order, correspond one-to-one to the valid entries of the snapshot (scalars, then vectors, then
textures, then switches, each in array order): the first input of the k-th merge node is fed
by the node created just before it, and that node is the leaf carrying the name and value of
the k-th valid entry (for a switch, a switch node both of whose inputs are fed by one constant
of value 1); so there are as many merge nodes as valid entries. -/
theorem C4_merge_nodes_follow_valid_entries (E : Engine) (S : ImporterState)
    (Material : UMaterial) :
    MergeLeaves (FallbackMaterial E S Material).Expressions
        = (Spec.ValidEntries E S.CachedExpressionData).map some
      ∧ (NodesWhere IsAdd (FallbackMaterial E S Material).Expressions).length
        = (Spec.ValidEntries E S.CachedExpressionData).length
      ∧ ∀ k : Nat,
        ((NodesWhere IsAdd (FallbackMaterial E S Material).Expressions)[k]?).map
            (FirstInput (FallbackMaterial E S Material).Expressions)
          = ((NodesWhere IsAdd (FallbackMaterial E S Material).Expressions)[k]?).map
              fun a => some (a - 1) := by
  obtain ⟨bs, P, hbs, hP, hG⟩ := FallbackMaterial_shape E S Material
  have hE : (FallbackMaterial E S Material).Expressions = P ++ Render E P.length bs none := by
    rw [hG]
  have hadds : NodesWhere IsAdd (P ++ Render E P.length bs none) = AddPositions P.length bs := by
    have := NodesWhere_IsAdd_shape E (BinderInput E S Material) (NextAdd P.length bs none) bs none
    rw [← hP] at this
    exact this
  rw [hE, hadds]
  refine ⟨?_, ?_, ?_⟩
  · unfold MergeLeaves
    rw [List.filterMap_append]
    have h1 : P.filterMap (MergeLeafOf (P ++ Render E P.length bs none)) = [] := by
      apply filterMap_eq_nil_of
      intro e he
      rw [hP] at he
      exact (Prelude_no_merge E _ _ _ e he).1
    have h2 := MergeLeaves_Render E bs P [] none
    rw [List.append_nil] at h2
    rw [h1, h2, ← hbs, List.nil_append, List.map_map]
    rfl
  · rw [AddPositions_length, ← hbs, List.length_map]
  · intro k
    cases h : (AddPositions P.length bs)[k]? with
    | none => rfl
    | some a =>
      have := FirstInput_Render E bs P [] none k a h
      rw [List.append_nil] at this
      simp [this]

theorem BindOutput_direct (E : Engine) (M : UMaterial) (hb : M.bUseMaterialAttributes = false) :
    BindOutput E M
      = (({ M with Expressions := M.Expressions ++ Prelude E M none } : UMaterial).SetRootExpression
            (SelectInputProperty M) M.Expressions.length,
          0 - 16 * 8 * 2, M.Expressions.length, .Root (SelectInputProperty M)) := by
  simp [BindOutput, Prelude, hb, AssignMatInput, Link]

theorem BindOutput_attributes (E : Engine) (M : UMaterial) (hb : M.bUseMaterialAttributes = true) :
    BindOutput E M
      = ({ M.SetRootExpression .MP_MaterialAttributes M.Expressions.length with
            Expressions := M.Expressions ++ Prelude E M none },
          0 - 16 * 8 * 2 - 16 * 8 * 2, M.Expressions.length + 1, .LastInputOf M.Expressions.length) := by
  unfold BindOutput
  simp only [hb, if_true, BindMaterialAttributes_eq]
  rw [AssignMatInput_LastInputOf _ M.Expressions (AggregationNode E M none)
      (.Clamp { MaterialExpressionEditorX := 0 - 16 * 8 * 2 - 16 * 8 * 2 + 16 * 4,
                MaterialExpressionEditorY := 0, MinDefault := 0, MaxDefault := 1 }) _
      (by simp)]
  simp [Prelude, hb, AggregationNode, ModifyLast_snoc, Link]

theorem BinderInput_facts (E : Engine) (S : ImporterState) (Material : UMaterial) :
    (BinderInput E S Material).Expressions = []
    ∧ (BinderInput E S Material).bUseMaterialAttributes = Material.bUseMaterialAttributes
    ∧ (BinderInput E S Material).MaterialDomain = Material.MaterialDomain
    ∧ (BinderInput E S Material).EmissiveColor = Material.EmissiveColor
    ∧ (BinderInput E S Material).BaseColor = Material.BaseColor
    ∧ (BinderInput E S Material).WorldPositionOffset = Material.WorldPositionOffset
    ∧ (BinderInput E S Material).MaterialAttributes = Material.MaterialAttributes := by
  have := Expressions_ReadShadingModels E S.AssetData (ClearExpressions Material)
  exact this

theorem NodesFrom_IsClamp_Render (E : Engine) (bs : List Block) (n i : Nat) (t : Option Nat) :
    NodesFrom IsClamp i (Render E n bs t) = [] :=
  NodesFrom_Render_nil E IsClamp (fun e he => by cases e <;> simp_all [IsAdd, IsClamp])
    (fun x y n en e he => (LeafNodes_kind E x y n en [] e he).2.1) bs n i t

theorem NodesFrom_IsSet_Render (E : Engine) (bs : List Block) (n i : Nat) (t : Option Nat) :
    NodesFrom IsSetMaterialAttributes i (Render E n bs t) = [] :=
  NodesFrom_Render_nil E IsSetMaterialAttributes
    (fun e he => by cases e <;> simp_all [IsAdd, IsSetMaterialAttributes])
    (fun x y n en e he => (LeafNodes_kind E x y n en [] e he).2.2.1) bs n i t

theorem Clamp_shape (E : Engine) (M : UMaterial) (o : Option Nat) (R : List UMaterialExpression)
    (hR : ∀ i, NodesFrom IsClamp i R = []) :
    ∃ e, NodesWhere IsClamp (Prelude E M o ++ R) = [if M.bUseMaterialAttributes then 1 else 0]
      ∧ (Prelude E M o ++ R)[if M.bUseMaterialAttributes then 1 else 0]? = some (.Clamp e)
      ∧ e.MinDefault = 0 ∧ e.MaxDefault = 1 ∧ e.Input.Expression = o := by
  unfold NodesWhere Prelude
  cases hb : M.bUseMaterialAttributes with
  | false =>
    refine ⟨{ MaterialExpressionEditorX := 0 - 16 * 8 * 2 + 16 * 4, MaterialExpressionEditorY := 0,
              MinDefault := 0, MaxDefault := 1, Input := Link o }, ?_, ?_, rfl, rfl, Link_Expression o⟩
    · simp [NodesFrom, IsClamp, hR]
    · simp
  | true =>
    refine ⟨{ MaterialExpressionEditorX := 0 - 16 * 8 * 2 - 16 * 8 * 2 + 16 * 4,
              MaterialExpressionEditorY := 0, MinDefault := 0, MaxDefault := 1, Input := Link o },
      ?_, ?_, rfl, rfl, Link_Expression o⟩
    · simp [NodesFrom, IsClamp, IsSetMaterialAttributes, hR]
    · simp

/-- Claim C5, as the code has it: the chain runs forward.  The clamp (the one clamp of the
graph) has its input fed by the first merge node, and every merge node has its second input
fed by the merge node of the next valid entry; the second input of the last merge node is
fed by nothing. -/
theorem C5_chain_runs_from_clamp_forward (E : Engine) (S : ImporterState) (Material : UMaterial) :
    (∃ clamp, NodesWhere IsClamp (FallbackMaterial E S Material).Expressions = [clamp]
        ∧ ClampInput (FallbackMaterial E S Material).Expressions clamp
          = (NodesWhere IsAdd (FallbackMaterial E S Material).Expressions).head?)
      ∧ ∀ k : Nat,
        ((NodesWhere IsAdd (FallbackMaterial E S Material).Expressions)[k]?).map
            (SecondInput (FallbackMaterial E S Material).Expressions)
          = ((NodesWhere IsAdd (FallbackMaterial E S Material).Expressions)[k]?).map
              fun _ => (NodesWhere IsAdd (FallbackMaterial E S Material).Expressions)[k + 1]? := by
  obtain ⟨bs, P, hbs, hP, hG⟩ := FallbackMaterial_shape E S Material
  have hE : (FallbackMaterial E S Material).Expressions = P ++ Render E P.length bs none := by
    rw [hG]
  have hadds : NodesWhere IsAdd (P ++ Render E P.length bs none) = AddPositions P.length bs := by
    have := NodesWhere_IsAdd_shape E (BinderInput E S Material) (NextAdd P.length bs none) bs none
    rw [← hP] at this
    exact this
  rw [hE, hadds]
  refine ⟨?_, ?_⟩
  · obtain ⟨e, h1, h2, _, _, h5⟩ := Clamp_shape E (BinderInput E S Material)
      (NextAdd P.length bs none) (Render E P.length bs none)
      (fun i => NodesFrom_IsClamp_Render E bs _ i none)
    rw [← hP] at h1 h2
    refine ⟨_, h1, ?_⟩
    simp only [ClampInput, h2, h5, AddPositions_head]
  · intro k
    cases h : (AddPositions P.length bs)[k]? with
    | none => rfl
    | some a =>
      have := SecondInput_Render E bs P [] none k a h
      rw [List.append_nil] at this
      simp [this]

/-- Claim C5 as stated fails on the worked example (scalars `A` and `B`): the merge nodes are
at positions 2 and 4, and the second input of the merge node of `B` is not fed by the merge
node of `A`; it is fed by nothing, while the second input of the merge node of `A` is fed
by the merge node of `B`. -/
theorem C5_counterexample :
    NodesWhere IsAdd (FallbackMaterial exampleEngine exampleState exampleMaterial).Expressions = [2, 4]
      ∧ SecondInput (FallbackMaterial exampleEngine exampleState exampleMaterial).Expressions 4 ≠ some 2
      ∧ SecondInput (FallbackMaterial exampleEngine exampleState exampleMaterial).Expressions 4 = none
      ∧ SecondInput (FallbackMaterial exampleEngine exampleState exampleMaterial).Expressions 2 = some 4 := by
  decide

theorem Expression_SetRootExpression (M : UMaterial) (p : EMaterialProperty) (e : Nat) :
    ((M.SetRootExpression p e).GetExpressionInputForProperty p).Expression = some e := by
  cases p <;> rfl

/-- Claim C7: in the fallback path with output binding not skipped, whatever the snapshot,
the graph holds exactly one clamp node, its bounds are 0 and 1, and it is the producer of the
input that receives the graph's output: when the material uses attributes, the input the
binder appended to the aggregation node; when it does not, the root input the domain switch
selects. -/
theorem C7_one_unit_clamp_feeds_output (E : Engine) (S : ImporterState) (Material : UMaterial) :
    ∃ clamp e,
      NodesWhere IsClamp (FallbackMaterial E S Material).Expressions = [clamp]
      ∧ (FallbackMaterial E S Material).Expressions[clamp]? = some (.Clamp e)
      ∧ e.MinDefault = 0 ∧ e.MaxDefault = 1
      ∧ if Material.bUseMaterialAttributes = true then
          ∃ s entry, (FallbackMaterial E S Material).Expressions[0]? = some (.SetMaterialAttributes s)
            ∧ s.Inputs = E.NewSetMaterialAttributes.Inputs ++ [entry]
            ∧ entry.Expression = some clamp
        else
          ((FallbackMaterial E S Material).GetExpressionInputForProperty
            (SelectInputProperty (BinderInput E S Material))).Expression = some clamp := by
  obtain ⟨bs, P, hbs, hP, hG⟩ := FallbackMaterial_shape E S Material
  obtain ⟨hM0, hMb, _⟩ := BinderInput_facts E S Material
  obtain ⟨e, h1, h2, h3, h4, _⟩ := Clamp_shape E (BinderInput E S Material)
      (NextAdd P.length bs none) (Render E P.length bs none)
      (fun i => NodesFrom_IsClamp_Render E bs _ i none)
  rw [← hP] at h1 h2
  rw [hMb] at h1 h2
  have hE : (FallbackMaterial E S Material).Expressions = P ++ Render E P.length bs none := by
    rw [hG]
  refine ⟨_, e, by rw [hE]; exact h1, by rw [hE]; exact h2, h3, h4, ?_⟩
  cases hb : Material.bUseMaterialAttributes with
  | false =>
    simp only [Bool.false_eq_true, if_false]
    rw [hG, BindOutput_direct E _ (by rw [hMb]; exact hb), hM0]
    exact Expression_SetRootExpression _ _ _
  | true =>
    simp only [if_true]
    have h0 : (P ++ Render E P.length bs none)[0]?
        = some (.SetMaterialAttributes (AggregationNode E (BinderInput E S Material)
            (some ((BinderInput E S Material).Expressions.length + 1)))) := by
      rw [hP]
      simp [Prelude, hMb, hb]
    refine ⟨_, _, by rw [hE]; exact h0, rfl, ?_⟩
    simp [hM0]

theorem SelectInputProperty_eq_table (Material : UMaterial) :
    SelectInputProperty Material
      = Spec.BoundSlot Material.MaterialDomain (HasShadingModel Material.ShadingModels MSM_Unlit) := by
  unfold SelectInputProperty Spec.BoundSlot
  cases Material.MaterialDomain <;> simp

theorem SelectAttributeProperty_eq_table (Material : UMaterial) :
    SelectAttributeProperty Material
      = Spec.BoundSlot Material.MaterialDomain (HasShadingModel Material.ShadingModels MSM_Unlit) := by
  unfold SelectAttributeProperty Spec.BoundSlot
  cases Material.MaterialDomain <;> simp

/-- Claim C1: in the fallback path, for every domain and every shading-model bitset, the
switch of the direct mode selects the root input the table gives (Surface with the unlit flag
Emissive, Surface without it BaseColor; LightFunction, PostProcess and UI Emissive;
DeferredDecal WorldPositionOffset whatever the flags; Volume and every other domain
BaseColor), the switch of the aggregation mode selects the same output, `matInput` of a
material that does not use attributes is that root input, and the identifier the aggregation
mode appends to the aggregation node is the identifier of that output. -/
theorem C1_both_modes_select_table_output (E : Engine) (Material : UMaterial) :
    SelectInputProperty Material
        = Spec.BoundSlot Material.MaterialDomain (HasShadingModel Material.ShadingModels MSM_Unlit)
      ∧ SelectAttributeProperty Material = SelectInputProperty Material
      ∧ (BindOutput E { Material with bUseMaterialAttributes := false }).2.2.2
        = MatInputPtr.Root
            (Spec.BoundSlot Material.MaterialDomain (HasShadingModel Material.ShadingModels MSM_Unlit))
      ∧ (∃ e, (BindOutput E { Material with bUseMaterialAttributes := true }).1.Expressions[
            Material.Expressions.length]? = some (.SetMaterialAttributes e)
          ∧ e.AttributeSetTypes = E.NewSetMaterialAttributes.AttributeSetTypes ++
              [E.GetID (Spec.BoundSlot Material.MaterialDomain
                (HasShadingModel Material.ShadingModels MSM_Unlit))])
      ∧ (∀ flags : Bool, Spec.BoundSlot .MD_Surface flags
          = if flags then .MP_EmissiveColor else .MP_BaseColor)
      ∧ (∀ flags : Bool, Spec.BoundSlot .MD_LightFunction flags = .MP_EmissiveColor
          ∧ Spec.BoundSlot .MD_PostProcess flags = .MP_EmissiveColor
          ∧ Spec.BoundSlot .MD_UI flags = .MP_EmissiveColor
          ∧ Spec.BoundSlot .MD_DeferredDecal flags = .MP_WorldPositionOffset
          ∧ Spec.BoundSlot .MD_Volume flags = .MP_BaseColor
          ∧ ∀ tag : Nat, Spec.BoundSlot (.Other tag) flags = .MP_BaseColor) := by
  refine ⟨SelectInputProperty_eq_table Material, ?_, ?_, ?_, ?_, ?_⟩
  · rw [SelectInputProperty_eq_table, SelectAttributeProperty_eq_table]
  · rw [BindOutput_direct E _ rfl]
    exact congrArg MatInputPtr.Root (SelectInputProperty_eq_table _)
  · rw [BindOutput_attributes E _ rfl]
    refine ⟨AggregationNode E { Material with bUseMaterialAttributes := true }
      (some (Material.Expressions.length + 1)), ?_, ?_⟩
    · simp only [Prelude, if_true]
      rw [List.getElem?_append_right (Nat.le_refl _)]
      simp
    · simp only [AggregationNode]
      rw [SelectAttributeProperty_eq_table]
  · intro flags; cases flags <;> rfl
  · intro flags
    refine ⟨rfl, rfl, rfl, rfl, rfl, fun tag => rfl⟩

/-- Claim C6, as the code has it: in attribute-aggregation mode, for every domain, shading
bitset and snapshot, exactly one aggregation node is created; the identifier of the output
the domain/shading table selects and exactly one input are appended to what a fresh node
holds; and the aggregation node is the producer bound to the `MaterialAttributes` root input,
not to the root input of the selected output: the Emissive, BaseColor and
WorldPositionOffset root inputs stay as the factory left them. -/
theorem C6_aggregation_node_feeds_material_attributes (E : Engine) (S : ImporterState)
    (Material : UMaterial) (hAttributes : Material.bUseMaterialAttributes = true) :
    ∃ e entry,
      NodesWhere IsSetMaterialAttributes (FallbackMaterial E S Material).Expressions = [0]
      ∧ (FallbackMaterial E S Material).Expressions[0]? = some (.SetMaterialAttributes e)
      ∧ e.AttributeSetTypes = E.NewSetMaterialAttributes.AttributeSetTypes ++
          [E.GetID (Spec.BoundSlot Material.MaterialDomain
            (HasShadingModel (BinderInput E S Material).ShadingModels MSM_Unlit))]
      ∧ e.Inputs = E.NewSetMaterialAttributes.Inputs ++ [entry]
      ∧ (FallbackMaterial E S Material).MaterialAttributes.Expression = some 0
      ∧ (FallbackMaterial E S Material).EmissiveColor = Material.EmissiveColor
      ∧ (FallbackMaterial E S Material).BaseColor = Material.BaseColor
      ∧ (FallbackMaterial E S Material).WorldPositionOffset = Material.WorldPositionOffset := by
  obtain ⟨bs, P, hbs, hP, hG⟩ := FallbackMaterial_shape E S Material
  obtain ⟨hM0, hMb, hMd, hMe, hMc, hMw, _⟩ := BinderInput_facts E S Material
  have hb : (BinderInput E S Material).bUseMaterialAttributes = true := by rw [hMb]; exact hAttributes
  have hPre : P = [.SetMaterialAttributes (AggregationNode E (BinderInput E S Material) (some 1)),
      .Clamp { MaterialExpressionEditorX := 0 - 16 * 8 * 2 - 16 * 8 * 2 + 16 * 4,
               MaterialExpressionEditorY := 0, MinDefault := 0, MaxDefault := 1,
               Input := Link (NextAdd 2 bs none) }] := by
    have hlen : P.length = 2 := by rw [hP]; simp [Prelude, hb]
    have hP2 := hP
    rw [hlen] at hP2
    rw [hP2]
    simp [Prelude, hb, hM0]
  rw [hG, BindOutput_attributes E _ hb, hM0]
  refine ⟨AggregationNode E (BinderInput E S Material) (some 1), _, ?_, ?_, ?_, rfl, ?_, ?_, ?_, ?_⟩
  · simp only []
    rw [hPre]
    simp [NodesWhere, NodesFrom, IsSetMaterialAttributes, NodesFrom_IsSet_Render]
  · simp only []
    rw [hPre]
    simp
  · simp only [AggregationNode]
    rw [SelectAttributeProperty_eq_table, hMd]
  · rfl
  · exact hMe
  · exact hMc
  · exact hMw

/-- The theorem of claim C6 at the example material in attribute-aggregation mode. -/
theorem C6_witness :
    exampleAttributeMaterial.bUseMaterialAttributes = true
    ∧ ∃ e entry,
      NodesWhere IsSetMaterialAttributes
          (FallbackMaterial exampleEngine exampleState exampleAttributeMaterial).Expressions = [0]
      ∧ (FallbackMaterial exampleEngine exampleState exampleAttributeMaterial).Expressions[0]?
          = some (.SetMaterialAttributes e)
      ∧ e.AttributeSetTypes = exampleEngine.NewSetMaterialAttributes.AttributeSetTypes ++
          [exampleEngine.GetID (Spec.BoundSlot exampleAttributeMaterial.MaterialDomain
            (HasShadingModel (BinderInput exampleEngine exampleState exampleAttributeMaterial).ShadingModels
              MSM_Unlit))]
      ∧ e.Inputs = exampleEngine.NewSetMaterialAttributes.Inputs ++ [entry]
      ∧ (FallbackMaterial exampleEngine exampleState exampleAttributeMaterial).MaterialAttributes.Expression
          = some 0
      ∧ (FallbackMaterial exampleEngine exampleState exampleAttributeMaterial).EmissiveColor
          = exampleAttributeMaterial.EmissiveColor
      ∧ (FallbackMaterial exampleEngine exampleState exampleAttributeMaterial).BaseColor
          = exampleAttributeMaterial.BaseColor
      ∧ (FallbackMaterial exampleEngine exampleState exampleAttributeMaterial).WorldPositionOffset
          = exampleAttributeMaterial.WorldPositionOffset :=
  ⟨rfl, C6_aggregation_node_feeds_material_attributes exampleEngine exampleState
    exampleAttributeMaterial rfl⟩

/-- Claim C6 as stated fails on the example material in attribute-aggregation mode (a lit
surface, for which the table selects BaseColor): one aggregation node is created, at
position 0, but it is not the producer of the BaseColor root input, which has none; it is
the producer of the `MaterialAttributes` root input. -/
theorem C6_counterexample :
    NodesWhere IsSetMaterialAttributes
        (FallbackMaterial exampleEngine exampleState exampleAttributeMaterial).Expressions = [0]
      ∧ Spec.BoundSlot exampleAttributeMaterial.MaterialDomain
          (HasShadingModel (BinderInput exampleEngine exampleState exampleAttributeMaterial).ShadingModels
            MSM_Unlit) = .MP_BaseColor
      ∧ ((FallbackMaterial exampleEngine exampleState exampleAttributeMaterial).GetExpressionInputForProperty
          .MP_BaseColor).Expression ≠ some 0
      ∧ ((FallbackMaterial exampleEngine exampleState exampleAttributeMaterial).GetExpressionInputForProperty
          .MP_BaseColor).Expression = none
      ∧ ((FallbackMaterial exampleEngine exampleState exampleAttributeMaterial).GetExpressionInputForProperty
          .MP_MaterialAttributes).Expression = some 0 := by
  decide

theorem RunCategory_Rep (E : Engine) (clamp : Nat) (pre : List UMaterialExpression)
    (hc : clamp < pre.length) (cat : Spec.Category) (C : FJsonObject) (bs : List Block)
    (st : SynthState) (h : Rep E clamp pre bs st) :
    ∃ cs, Rep E clamp pre (bs ++ cs) (RunCategory E clamp cat C st)
      ∧ cs.map Block.entry = Spec.CategoryEntries E cat C := by
  cases cat
  · obtain ⟨cs, h1, h2, _⟩ := ScalarCategory_Rep E clamp pre hc C bs st h
    exact ⟨cs, h1, h2⟩
  · obtain ⟨cs, h1, h2, _⟩ := VectorCategory_Rep E clamp pre hc C bs st h
    exact ⟨cs, h1, h2⟩
  · obtain ⟨cs, h1, h2, _⟩ := TextureCategory_Rep E clamp pre hc C bs st h
    exact ⟨cs, h1, h2⟩
  · obtain ⟨cs, h1, h2, _⟩ := SwitchCategory_Rep E clamp pre hc C bs st h
    exact ⟨cs, h1, h2⟩

theorem RunCategories_Rep (E : Engine) (clamp : Nat) (pre : List UMaterialExpression)
    (hc : clamp < pre.length) (C : FJsonObject) (cats : List Spec.Category) :
    ∀ (bs : List Block) (st : SynthState), Rep E clamp pre bs st →
      ∃ cs, Rep E clamp pre (bs ++ cs)
          (cats.foldl (fun st earlier => RunCategory E clamp earlier C st) st)
        ∧ cs.map Block.entry = Spec.EntriesOfCategories E C cats := by
  induction cats with
  | nil => intro bs st h; exact ⟨[], by simpa using h, rfl⟩
  | cons cat rest ih =>
    intro bs st h
    obtain ⟨c1, h1, e1⟩ := RunCategory_Rep E clamp pre hc cat C bs st h
    obtain ⟨c2, h2, e2⟩ := ih (bs ++ c1) _ h1
    refine ⟨c1 ++ c2, by simpa [List.append_assoc] using h2, ?_⟩
    simp [Spec.EntriesOfCategories, e1, e2]

/-- The merge leaves of a state that holds the nodes of the Output Binder followed by a
rendered chain are the entries of the chain. -/
theorem MergeLeaves_of_Rep (E : Engine) (M : UMaterial) (hM : M.Expressions = [])
    (bs : List Block) (st : SynthState)
    (h : Rep E ((Prelude E M none).length - 1) (Prelude E M none) bs st) :
    MergeLeaves st.Expressions = bs.map fun b => some b.entry := by
  have hcf := ConnectFirst_Prelude E M (NextAdd (Prelude E M none).length bs none)
  rw [hM] at hcf
  simp only [List.nil_append] at hcf
  have hE := h.1
  rw [hcf] at hE
  generalize hP : Prelude E M (NextAdd (Prelude E M none).length bs none) = P at hE
  have hlen : (Prelude E M none).length = P.length := by
    rw [← hP]; exact (length_Prelude E M _).symm
  rw [hlen] at hE
  rw [hE]
  unfold MergeLeaves
  rw [List.filterMap_append]
  have h1 : P.filterMap (MergeLeafOf (P ++ Render E P.length bs none)) = [] := by
    apply filterMap_eq_nil_of
    intro e he
    rw [← hP] at he
    exact (Prelude_no_merge E _ _ _ e he).1
  have h2 := MergeLeaves_Render E bs P [] none
  rw [List.append_nil] at h2
  rw [h1, h2, List.nil_append]

theorem RecreationStart_Rep (E : Engine) (S : ImporterState) (Material : UMaterial) :
    (BindOutput E (BinderInput E S Material)).2.2.1
        = (Prelude E (BinderInput E S Material) none).length - 1
      ∧ Rep E ((Prelude E (BinderInput E S Material) none).length - 1)
          (Prelude E (BinderInput E S Material) none) [] (RecreationStart E S Material) := by
  obtain ⟨hE, hclamp⟩ := BindOutput_Expressions E (BinderInput E S Material)
  have hM := (BinderInput_facts E S Material).1
  rw [hM] at hE hclamp
  simp only [List.nil_append] at hE hclamp
  refine ⟨hclamp, ?_, rfl⟩
  simp [RecreationStart, hE, ConnectFirst, NextAdd, Render]

/-- The merge leaves of the collection right after a category has run are the valid entries
of the categories before it followed by its own. -/
theorem MergeLeaves_GraphAfter (E : Engine) (S : ImporterState) (Material : UMaterial)
    (cat : Spec.Category) :
    MergeLeaves (GraphAfter E S Material cat)
      = (Spec.EntriesOfCategories E S.CachedExpressionData cat.Earlier
          ++ Spec.CategoryEntries E cat S.CachedExpressionData).map some := by
  obtain ⟨hclamp, hrep⟩ := RecreationStart_Rep E S Material
  have hpos := length_Prelude_pos E (BinderInput E S Material) none
  have hc : (Prelude E (BinderInput E S Material) none).length - 1
      < (Prelude E (BinderInput E S Material) none).length := by omega
  obtain ⟨c1, h1, e1⟩ := RunCategories_Rep E _ _ hc S.CachedExpressionData cat.Earlier [] _ hrep
  obtain ⟨c2, h2, e2⟩ := RunCategory_Rep E _ _ hc cat S.CachedExpressionData _ _ h1
  unfold GraphAfter
  rw [hclamp, MergeLeaves_of_Rep E _ (BinderInput_facts E S Material).1 _ _ h2]
  rw [← e1, ← e2]
  simp [List.map_map, Function.comp_def]

/-- After the last category the collection is the one of the fallback graph. -/
theorem GraphAfter_Switch (E : Engine) (S : ImporterState) (Material : UMaterial) :
    GraphAfter E S Material .Switch = (FallbackMaterial E S Material).Expressions := by
  simp [GraphAfter, FallbackMaterial, FallbackGraph, SynthesizeFallback, ParamRecreation,
    RecreationStart, RunCategory, Spec.Category.Earlier, BinderInput]

theorem Arrays_three (cat : Spec.Category) (C : FJsonObject) (d v r : List FJsonValue)
    (h : cat.Arrays C = some [d, v, r]) : cat = .Scalar ∨ cat = .Vector := by
  cases cat
  · exact Or.inl rfl
  · exact Or.inr rfl
  · exfalso
    simp only [Spec.Category.Arrays, Spec.Category.Redirection] at h
    split at h <;> simp at h
  · exfalso
    simp only [Spec.Category.Arrays, Spec.Category.Redirection] at h
    split at h <;> simp at h

theorem CategoryEntries_of_Arrays (E : Engine) (cat : Spec.Category) (C : FJsonObject)
    (d v r : List FJsonValue) (h : cat.Arrays C = some [d, v, r])
    (hLength : v.length = d.length ∧ r.length = d.length) :
    Spec.CategoryEntries E cat C
      = (List.range d.length).filterMap (Spec.EntryAt E cat [d, v, r]) := by
  simp [Spec.CategoryEntries, Spec.Category.Mismatched, h, hLength.1, hLength.2]

theorem ReadVectorValue_eq (E : Engine) (Name : FName) (value : FJsonValue) :
    (do
      let color ← TryGetObject value
      let R ← TryGetNumberField_float E color "R"
      let G ← TryGetNumberField_float E color "G"
      let B ← TryGetNumberField_float E color "B"
      let A ← TryGetNumberField_float E color "A"
      pure (Entry.vector Name { R := R, G := G, B := B, A := A }))
      = (ReadVectorValue E value).map (Entry.vector Name) := by
  unfold ReadVectorValue ReadLinearColor
  cases TryGetObject value with
  | none => rfl
  | some o =>
    simp only [Option.bind_eq_bind, Option.some_bind, Option.pure_def]
    cases TryGetNumberField_float E o "R" with
    | none => rfl
    | some a =>
      cases TryGetNumberField_float E o "G" with
      | none => rfl
      | some b =>
        cases TryGetNumberField_float E o "B" with
        | none => rfl
        | some c =>
          cases TryGetNumberField_float E o "A" with
          | none => rfl
          | some e => rfl

/-- The entry of a scalar or vector position: the descriptor's name with the redirected
value read in the shape of the category. -/
theorem EntryAt_redirected (E : Engine) (cat : Spec.Category) (d v r : List FJsonValue) (i : Nat)
    (hcat : cat = .Scalar ∨ cat = .Vector) :
    Spec.EntryAt E cat [d, v, r] i
      = (Spec.NameAt E d i).bind fun Name =>
          (Spec.RedirectedValue E r v i).bind (Spec.LeafEntry E cat Name) := by
  rcases hcat with h | h <;> subst h
  · simp only [Spec.EntryAt, Spec.LeafEntry, Option.bind_eq_bind, Option.pure_def]
    cases Spec.NameAt E d i with
    | none => rfl
    | some nm =>
      cases Spec.RedirectedValue E r v i with
      | none => rfl
      | some value =>
        simp only [Option.some_bind]
        cases E.TryGetNumber_float value <;> rfl
  · simp only [Spec.EntryAt, Spec.LeafEntry]
    cases Spec.NameAt E d i with
    | none => rfl
    | some nm =>
      cases Spec.RedirectedValue E r v i with
      | none => rfl
      | some value =>
        simp only [Option.some_bind]
        exact ReadVectorValue_eq E nm value

theorem RedirectedValue_of_read (E : Engine) (v r : List FJsonValue) (i : Nat) (red : Int)
    (hRed : (r[i]?).bind E.TryGetNumber_int32 = some red) :
    Spec.RedirectedValue E r v i
      = if IsValidIndex v (if red = -1 then (i : Int) else red) then
          v[(if red = -1 then (i : Int) else red).toNat]?
        else none := by
  rw [RedirectedValue_eq, hRed]; rfl

theorem Blocks.Size_eq_sum (bs : List Block) :
    Blocks.Size bs = ((bs.map Block.entry).map Entry.Nodes).sum := by
  induction bs with
  | nil => rfl
  | cons b rest ih =>
    simp only [Blocks.Size, List.map_cons, List.sum_cons, ih]
    congr 1

/-- The collection right after a category has run, in closed form. -/
theorem GraphAfter_closed (E : Engine) (S : ImporterState) (Material : UMaterial)
    (cat : Spec.Category) :
    MergeLeaves (GraphAfter E S Material cat)
        = (Spec.EntriesOfCategories E S.CachedExpressionData cat.Earlier
            ++ Spec.CategoryEntries E cat S.CachedExpressionData).map some
      ∧ (GraphAfter E S Material cat).length
        = (RecreationStart E S Material).Expressions.length
          + ((Spec.EntriesOfCategories E S.CachedExpressionData cat.Earlier
              ++ Spec.CategoryEntries E cat S.CachedExpressionData).map Entry.Nodes).sum := by
  obtain ⟨hclamp, hrep⟩ := RecreationStart_Rep E S Material
  have hpos := length_Prelude_pos E (BinderInput E S Material) none
  have hc : (Prelude E (BinderInput E S Material) none).length - 1
      < (Prelude E (BinderInput E S Material) none).length := by omega
  obtain ⟨c1, h1, e1⟩ := RunCategories_Rep E _ _ hc S.CachedExpressionData cat.Earlier [] _ hrep
  obtain ⟨c2, h2, e2⟩ := RunCategory_Rep E _ _ hc cat S.CachedExpressionData _ _ h1
  have hstart : (RecreationStart E S Material).Expressions.length
      = (Prelude E (BinderInput E S Material) none).length := by
    rw [hrep.1]; simp [length_ConnectFirst, Render]
  refine ⟨?_, ?_⟩
  · unfold GraphAfter
    rw [hclamp, MergeLeaves_of_Rep E _ (BinderInput_facts E S Material).1 _ _ h2]
    rw [← e1, ← e2]
    simp [List.map_map, Function.comp_def]
  · unfold GraphAfter
    rw [hclamp, h2.1, List.length_append, length_ConnectFirst, length_Render, hstart,
      Blocks.Size_eq_sum, ← e1, ← e2]
    simp

theorem ValidEntries_split (E : Engine) (C : FJsonObject) (cat : Spec.Category) :
    Spec.ValidEntries E C
      = Spec.EntriesOfCategories E C cat.Earlier ++ Spec.CategoryEntries E cat C
          ++ Spec.EntriesOfCategories E C cat.Later := by
  cases cat <;>
    simp [Spec.ValidEntries, Spec.EntriesOfCategories, Spec.Category.Earlier, Spec.Category.Later]

/-- The merge leaves of the fallback graph are the valid entries of the snapshot. -/
theorem MergeLeaves_FallbackMaterial (E : Engine) (S : ImporterState) (Material : UMaterial) :
    MergeLeaves (FallbackMaterial E S Material).Expressions
      = (Spec.ValidEntries E S.CachedExpressionData).map some := by
  rw [← GraphAfter_Switch, (GraphAfter_closed E S Material .Switch).1,
    ValidEntries_split E _ .Switch]
  simp [Spec.Category.Later, Spec.EntriesOfCategories]

theorem ScalarEntry_NextRow (E : Engine) (clamp : Nat) (params idxs vals : List FJsonValue)
    (i : Nat) (paramVal : FJsonValue) (st : SynthState) (hp : params[i]? = some paramVal) :
    ScalarEntry E clamp idxs vals i paramVal st
      = NextRow (16 * 6) (EmitOpt E clamp (Spec.EntryAt E .Scalar [params, vals, idxs] i) st) :=
  ScalarEntry_eq E clamp params idxs vals i paramVal st hp

theorem VectorEntry_NextRow (E : Engine) (clamp : Nat) (params idxs vals : List FJsonValue)
    (i : Nat) (paramVal : FJsonValue) (st : SynthState) (hp : params[i]? = some paramVal) :
    VectorEntry E clamp idxs vals i paramVal st
      = NextRow (16 * 13) (EmitOpt E clamp (Spec.EntryAt E .Vector [params, vals, idxs] i) st) :=
  VectorEntry_eq E clamp params idxs vals i paramVal st hp

/-- Claim C2: in the fallback graph, for the scalar and for the vector category (the two
categories with a redirection array), when the three arrays of the category have equal
length: the merge nodes present right after the code of the category has run are fed by the
valid entries of the earlier categories followed by the entries of the positions of this
category, every position taken in array order and passed over when it yields no entry; the
nodes added since the parameter recreation started are exactly the nodes of those entries;
in the finished fallback graph these entries are followed by those of the later categories;
the loop body at position `i` synthesizes the entry of that position, or nothing when there
is none, and moves to the next row; and at a position `i` whose redirection element reads as
the number `red`, the entry is made of the descriptor's name and of the value at index `i`
when `red` is -1, of the value at index `red` when `red` is any other number inside the
value array, and there is no entry when `red` is negative other than -1 or not below the
length of the value array. -/
theorem C2_redirection_selects_value_index (E : Engine) (S : ImporterState) (Material : UMaterial)
    (cat : Spec.Category) (d v r : List FJsonValue) (i : Nat) (red : Int)
    (hArrays : cat.Arrays S.CachedExpressionData = some [d, v, r])
    (hLength : v.length = d.length ∧ r.length = d.length)
    (hi : i < d.length)
    (hRed : (r[i]?).bind E.TryGetNumber_int32 = some red) :
    (cat = .Scalar ∨ cat = .Vector)
      ∧ MergeLeaves (GraphAfter E S Material cat)
          = (Spec.EntriesOfCategories E S.CachedExpressionData cat.Earlier
              ++ (List.range d.length).filterMap (Spec.EntryAt E cat [d, v, r])).map some
      ∧ (GraphAfter E S Material cat).length
          = (RecreationStart E S Material).Expressions.length
            + ((Spec.EntriesOfCategories E S.CachedExpressionData cat.Earlier
                ++ (List.range d.length).filterMap (Spec.EntryAt E cat [d, v, r])).map
                  Entry.Nodes).sum
      ∧ MergeLeaves (FallbackMaterial E S Material).Expressions
          = (Spec.EntriesOfCategories E S.CachedExpressionData cat.Earlier
              ++ (List.range d.length).filterMap (Spec.EntryAt E cat [d, v, r])
              ++ Spec.EntriesOfCategories E S.CachedExpressionData cat.Later).map some
      ∧ (∀ (clamp : Nat) (paramVal : FJsonValue) (st : SynthState), d[i]? = some paramVal →
          (cat = .Scalar →
            ScalarEntry E clamp r v i paramVal st
              = NextRow (16 * 6) (EmitOpt E clamp (Spec.EntryAt E cat [d, v, r] i) st))
          ∧ (cat = .Vector →
            VectorEntry E clamp r v i paramVal st
              = NextRow (16 * 13) (EmitOpt E clamp (Spec.EntryAt E cat [d, v, r] i) st)))
      ∧ (red = -1 →
          Spec.EntryAt E cat [d, v, r] i
            = (Spec.NameAt E d i).bind fun Name => (v[i]?).bind (Spec.LeafEntry E cat Name))
      ∧ (red ≠ -1 → 0 ≤ red → red < (v.length : Int) →
          Spec.EntryAt E cat [d, v, r] i
            = (Spec.NameAt E d i).bind fun Name =>
                (v[red.toNat]?).bind (Spec.LeafEntry E cat Name))
      ∧ ((red ≠ -1 ∧ red < 0) ∨ (v.length : Int) ≤ red →
          Spec.EntryAt E cat [d, v, r] i = none) := by
  have hcat := Arrays_three cat _ d v r hArrays
  have hval := RedirectedValue_of_read E v r i red hRed
  have hent := EntryAt_redirected E cat d v r i hcat
  have hcl := GraphAfter_closed E S Material cat
  have hce := CategoryEntries_of_Arrays E cat _ d v r hArrays hLength
  refine ⟨hcat, ?_, ?_, ?_, ?_, ?_, ?_, ?_⟩
  · rw [hcl.1, hce]
  · rw [hcl.2, hce]
  · rw [MergeLeaves_FallbackMaterial, ValidEntries_split E _ cat, hce]
  · intro clamp paramVal st hp
    refine ⟨?_, ?_⟩
    · intro h; subst h
      exact ScalarEntry_NextRow E clamp d r v i paramVal st hp
    · intro h; subst h
      exact VectorEntry_NextRow E clamp d r v i paramVal st hp
  · intro h1
    subst h1
    have hvalid : IsValidIndex v (i : Int) = true := by simp [IsValidIndex]; omega
    rw [hent, hval]
    simp [hvalid]
  · intro h1 h2 h3
    have hvalid : IsValidIndex v red = true := by simp [IsValidIndex]; omega
    rw [hent, hval]
    simp [h1, hvalid]
  · intro h
    have h1 : red ≠ -1 := by
      rcases h with h | h
      · exact h.1
      · omega
    have hvalid : IsValidIndex v red = false := by
      simp [IsValidIndex]
      rcases h with h | h <;> omega
    rw [hent, hval]
    simp [h1, hvalid]

/-- Claim C2 at the worked examples.  Scalars `A`, `B` with redirection `[-1, 0]` and values
`[5.0, 9.0]`: after the scalar category the merge nodes are fed by `A = 5.0` and `B = 5.0`,
`B` taking the value at index 0.  Vectors `V0`, `V1`, `V2` with redirection `[1, -1, 7]`:
`V0` takes the value at index 1, `V1` its own, and `V2`, whose index 7 lies outside the
three values, has no entry and its loop body only moves to the next row; after the vector
category the collection holds the clamp and the eight nodes of the two scalars, `V0` and
`V1`, and these four entries feed the merge nodes of the finished graph.  The last two
facts are the nodes themselves, evaluated on the code: the collection after the scalar
category, and the four nodes the vector category adds to it. -/
theorem C2_witness :
    Spec.Category.Arrays .Scalar exampleVectorState.CachedExpressionData
        = some [[exampleParam "A", exampleParam "B"], [.Number 5, .Number 9],
            [.Number (-1), .Number 0]]
      ∧ Spec.Category.Arrays .Vector exampleVectorState.CachedExpressionData
        = some [exampleVectorParams, exampleVectorValues, exampleVectorIndexes]
      ∧ MergeLeaves (GraphAfter exampleEngine exampleVectorState exampleMaterial .Scalar)
        = [some (.scalar "A" 5), some (.scalar "B" 5)]
      ∧ Spec.EntryAt exampleEngine .Scalar
          [[exampleParam "A", exampleParam "B"], [.Number 5, .Number 9],
            [.Number (-1), .Number 0]] 1
        = some (.scalar "B" 5)
      ∧ MergeLeaves (GraphAfter exampleEngine exampleVectorState exampleMaterial .Vector)
        = [some (.scalar "A" 5), some (.scalar "B" 5),
            some (.vector "V0" { R := 0, G := 1, B := 0, A := 1 }),
            some (.vector "V1" { R := 0, G := 1, B := 0, A := 1 })]
      ∧ (GraphAfter exampleEngine exampleVectorState exampleMaterial .Vector).length = 1 + 8
      ∧ MergeLeaves (FallbackMaterial exampleEngine exampleVectorState exampleMaterial).Expressions
        = [some (.scalar "A" 5), some (.scalar "B" 5),
            some (.vector "V0" { R := 0, G := 1, B := 0, A := 1 }),
            some (.vector "V1" { R := 0, G := 1, B := 0, A := 1 })]
      ∧ Spec.EntryAt exampleEngine .Vector
          [exampleVectorParams, exampleVectorValues, exampleVectorIndexes] 0
        = some (.vector "V0" { R := 0, G := 1, B := 0, A := 1 })
      ∧ Spec.EntryAt exampleEngine .Vector
          [exampleVectorParams, exampleVectorValues, exampleVectorIndexes] 1
        = some (.vector "V1" { R := 0, G := 1, B := 0, A := 1 })
      ∧ Spec.EntryAt exampleEngine .Vector
          [exampleVectorParams, exampleVectorValues, exampleVectorIndexes] 2
        = none
      ∧ VectorEntry exampleEngine 0 exampleVectorIndexes exampleVectorValues 2 (exampleParam "V2")
          exampleSynthState
        = NextRow (16 * 13) exampleSynthState
      ∧ GraphAfter exampleEngine exampleVectorState exampleMaterial .Scalar
        = [.Clamp { MaterialExpressionEditorX := -192, MaterialExpressionEditorY := 0,
                    MinDefault := 0, MaxDefault := 1, Input := { Expression := some 2 } },
           .ScalarParameter { ParameterName := "A", MaterialExpressionEditorX := -640,
                              MaterialExpressionEditorY := 0, DefaultValue := 5 },
           .Add { MaterialExpressionEditorX := -384, MaterialExpressionEditorY := 0,
                  A := { Expression := some 1 }, B := { Expression := some 4 } },
           .ScalarParameter { ParameterName := "B", MaterialExpressionEditorX := -640,
                              MaterialExpressionEditorY := 96, DefaultValue := 5 },
           .Add { MaterialExpressionEditorX := -384, MaterialExpressionEditorY := 96,
                  A := { Expression := some 3 } }]
      ∧ (GraphAfter exampleEngine exampleVectorState exampleMaterial .Vector).drop 5
        = [.VectorParameter { ParameterName := "V0", MaterialExpressionEditorX := -1152,
                              MaterialExpressionEditorY := 0,
                              DefaultValue := { R := 0, G := 1, B := 0, A := 1 } },
           .Add { MaterialExpressionEditorX := -896, MaterialExpressionEditorY := 0,
                  A := { Expression := some 5 }, B := { Expression := some 8 } },
           .VectorParameter { ParameterName := "V1", MaterialExpressionEditorX := -1152,
                              MaterialExpressionEditorY := 208,
                              DefaultValue := { R := 0, G := 1, B := 0, A := 1 } },
           .Add { MaterialExpressionEditorX := -896, MaterialExpressionEditorY := 208,
                  A := { Expression := some 7 } }] :=
  ⟨rfl, rfl,
    (C2_redirection_selects_value_index exampleEngine exampleVectorState exampleMaterial .Scalar
      [exampleParam "A", exampleParam "B"] [.Number 5, .Number 9] [.Number (-1), .Number 0]
      1 0 rfl (by decide) (by decide) (by decide)).2.1.trans (by decide),
    ((C2_redirection_selects_value_index exampleEngine exampleVectorState exampleMaterial .Scalar
      [exampleParam "A", exampleParam "B"] [.Number 5, .Number 9] [.Number (-1), .Number 0]
      1 0 rfl (by decide) (by decide) (by decide)).2.2.2.2.2.2.1
        (by decide) (by decide) (by decide)).trans (by decide),
    (C2_redirection_selects_value_index exampleEngine exampleVectorState exampleMaterial .Vector
      exampleVectorParams exampleVectorValues exampleVectorIndexes
      0 1 rfl (by decide) (by decide) (by decide)).2.1.trans (by decide),
    (C2_redirection_selects_value_index exampleEngine exampleVectorState exampleMaterial .Vector
      exampleVectorParams exampleVectorValues exampleVectorIndexes
      0 1 rfl (by decide) (by decide) (by decide)).2.2.1.trans (by decide),
    (C2_redirection_selects_value_index exampleEngine exampleVectorState exampleMaterial .Vector
      exampleVectorParams exampleVectorValues exampleVectorIndexes
      0 1 rfl (by decide) (by decide) (by decide)).2.2.2.1.trans (by decide),
    ((C2_redirection_selects_value_index exampleEngine exampleVectorState exampleMaterial .Vector
      exampleVectorParams exampleVectorValues exampleVectorIndexes
      0 1 rfl (by decide) (by decide) (by decide)).2.2.2.2.2.2.1
        (by decide) (by decide) (by decide)).trans (by decide),
    ((C2_redirection_selects_value_index exampleEngine exampleVectorState exampleMaterial .Vector
      exampleVectorParams exampleVectorValues exampleVectorIndexes
      1 (-1) rfl (by decide) (by decide) (by decide)).2.2.2.2.2.1 (by decide)).trans (by decide),
    (C2_redirection_selects_value_index exampleEngine exampleVectorState exampleMaterial .Vector
      exampleVectorParams exampleVectorValues exampleVectorIndexes
      2 7 rfl (by decide) (by decide) (by decide)).2.2.2.2.2.2.2 (Or.inr (by decide)),
    (((C2_redirection_selects_value_index exampleEngine exampleVectorState exampleMaterial .Vector
      exampleVectorParams exampleVectorValues exampleVectorIndexes
      2 7 rfl (by decide) (by decide) (by decide)).2.2.2.2.1 0 (exampleParam "V2")
        exampleSynthState rfl).2 rfl).trans rfl,
    by decide, by decide⟩

theorem TryGetField_RemoveField (o : FJsonObject) (k k2 : String) :
    TryGetField (RemoveField o k) k2 = if k2 = k then none else TryGetField o k2 := by
  unfold TryGetField RemoveField
  induction o with
  | nil => simp
  | cons f rest ih =>
    by_cases h1 : f.1 = k
    · by_cases h2 : k2 = k
      · simp [List.filter_cons, h1, h2] at ih ⊢
      · have h3 : ¬ k = k2 := fun h => h2 h.symm
        simp [List.filter_cons, List.find?_cons, h1, h2, h3] at ih ⊢
        exact ih
    · by_cases h2 : k2 = k
      · have h3 : ¬ f.1 = k2 := by rw [h2]; exact h1
        simp [List.filter_cons, List.find?_cons, h1, h2, h3] at ih ⊢
      · by_cases h3 : f.1 = k2
        · simp [List.filter_cons, List.find?_cons, h1, h2, h3]
        · simp [List.filter_cons, List.find?_cons, h1, h2, h3] at ih ⊢
          exact ih

theorem ScalarCategory_congr (E : Engine) (clamp : Nat) (C C2 : FJsonObject)
    (h1 : TryGetField C2 "RuntimeEntries" = TryGetField C "RuntimeEntries")
    (h2 : TryGetField C2 "ScalarPrimitiveDataIndexValues" = TryGetField C "ScalarPrimitiveDataIndexValues")
    (h3 : TryGetField C2 "ScalarValues" = TryGetField C "ScalarValues") :
    ScalarCategory E clamp C2 = ScalarCategory E clamp C := by
  funext st
  simp only [ScalarCategory, HasTypedField_Object, HasTypedField_Array, GetObjectField,
    GetArrayField, h1, h2, h3]

theorem VectorCategory_congr (E : Engine) (clamp : Nat) (C C2 : FJsonObject)
    (h1 : TryGetField C2 "RuntimeEntries[1]" = TryGetField C "RuntimeEntries[1]")
    (h2 : TryGetField C2 "VectorPrimitiveDataIndexValues" = TryGetField C "VectorPrimitiveDataIndexValues")
    (h3 : TryGetField C2 "VectorValues" = TryGetField C "VectorValues") :
    VectorCategory E clamp C2 = VectorCategory E clamp C := by
  funext st
  simp only [VectorCategory, HasTypedField_Object, HasTypedField_Array, GetObjectField,
    GetArrayField, h1, h2, h3]

theorem TextureCategory_congr (E : Engine) (clamp : Nat) (C C2 : FJsonObject)
    (h1 : TryGetField C2 "RuntimeEntries[3]" = TryGetField C "RuntimeEntries[3]")
    (h2 : TryGetField C2 "ReferencedTextures" = TryGetField C "ReferencedTextures")
    (h3 : TryGetField C2 "TextureValues" = TryGetField C "TextureValues") :
    TextureCategory E clamp C2 = TextureCategory E clamp C := by
  funext st
  simp only [TextureCategory, LoadReferencedTextures, HasTypedField_Object, HasTypedField_Array,
    GetObjectField, GetArrayField, h1, h2, h3]

theorem SwitchCategory_congr (E : Engine) (clamp : Nat) (C C2 : FJsonObject)
    (h1 : TryGetField C2 "RuntimeEntries[7]" = TryGetField C "RuntimeEntries[7]")
    (h3 : TryGetField C2 "StaticSwitchValues" = TryGetField C "StaticSwitchValues") :
    SwitchCategory E clamp C2 = SwitchCategory E clamp C := by
  funext st
  simp only [SwitchCategory, HasTypedField_Object, HasTypedField_Array, GetObjectField,
    GetArrayField, h1, h3]

theorem TryGetField_Remove (cat : Spec.Category) (C : FJsonObject) (k : String)
    (h1 : k ≠ cat.Values) (h2 : cat.Redirection ≠ some k) :
    TryGetField (cat.Remove C) k = TryGetField C k := by
  unfold Spec.Category.Remove
  cases hr : cat.Redirection with
  | none => simp [TryGetField_RemoveField, h1]
  | some red =>
    have : k ≠ red := by
      intro h; apply h2; rw [hr, h]
    simp [TryGetField_RemoveField, h1, this]

/-- Taking one category away from the snapshot leaves the code of every other category as it
was. -/
theorem RunCategory_Remove_ne (E : Engine) (clamp : Nat) (cat other : Spec.Category)
    (C : FJsonObject) (h : other ≠ cat) :
    RunCategory E clamp other (cat.Remove C) = RunCategory E clamp other C := by
  cases other <;> cases cat <;> first
    | exact absurd rfl h
    | (apply ScalarCategory_congr <;> apply TryGetField_Remove <;>
        simp [Spec.Category.Values, Spec.Category.Redirection])
    | (apply VectorCategory_congr <;> apply TryGetField_Remove <;>
        simp [Spec.Category.Values, Spec.Category.Redirection])
    | (apply TextureCategory_congr <;> apply TryGetField_Remove <;>
        simp [Spec.Category.Values, Spec.Category.Redirection])
    | (apply SwitchCategory_congr <;> apply TryGetField_Remove <;>
        simp [Spec.Category.Values, Spec.Category.Redirection])

theorem HasTypedField_Array_Remove (cat : Spec.Category) (C : FJsonObject) :
    HasTypedField_Array (cat.Remove C) cat.Values = false := by
  unfold HasTypedField_Array Spec.Category.Remove
  cases hr : cat.Redirection with
  | none => simp [TryGetField_RemoveField]
  | some red => simp [TryGetField_RemoveField]

/-- The code of a category that was taken away from the snapshot does nothing. -/
theorem RunCategory_Remove_self (E : Engine) (clamp : Nat) (cat : Spec.Category)
    (C : FJsonObject) (st : SynthState) :
    RunCategory E clamp cat (cat.Remove C) st = st := by
  have h := HasTypedField_Array_Remove cat C
  cases cat <;>
    simp only [RunCategory, ScalarCategory, VectorCategory, TextureCategory, SwitchCategory,
      Spec.Category.Values] at h ⊢ <;>
    simp [h]

/-- The code of a mismatched category does nothing. -/
theorem RunCategory_Mismatched (E : Engine) (clamp : Nat) (cat : Spec.Category)
    (C : FJsonObject) (st : SynthState) (h : cat.Mismatched C = true) :
    RunCategory E clamp cat C st = st := by
  cases cat <;>
    simp only [Spec.Category.Mismatched, Spec.Category.Arrays, Spec.Category.RuntimeEntries,
      Spec.Category.Values, Spec.Category.Redirection, TryGetObjectField_eq,
      TryGetArrayField_eq] at h <;>
    simp only [RunCategory, ScalarCategory, VectorCategory, TextureCategory, SwitchCategory]
  · cases h1 : HasTypedField_Object C "RuntimeEntries" <;>
    cases h2 : HasTypedField_Array (GetObjectField C "RuntimeEntries") "ParameterInfoSet" <;>
    cases h3 : HasTypedField_Array C "ScalarPrimitiveDataIndexValues" <;>
    cases h4 : HasTypedField_Array C "ScalarValues" <;>
    simp [h1, h2, h3, h4] at h ⊢
    intro ha hb
    omega
  · cases h1 : HasTypedField_Object C "RuntimeEntries[1]" <;>
    cases h2 : HasTypedField_Array (GetObjectField C "RuntimeEntries[1]") "ParameterInfoSet" <;>
    cases h3 : HasTypedField_Array C "VectorPrimitiveDataIndexValues" <;>
    cases h4 : HasTypedField_Array C "VectorValues" <;>
    simp [h1, h2, h3, h4] at h ⊢
    intro ha hb
    omega
  · cases h1 : HasTypedField_Object C "RuntimeEntries[3]" <;>
    cases h2 : HasTypedField_Array (GetObjectField C "RuntimeEntries[3]") "ParameterInfoSet" <;>
    cases h4 : HasTypedField_Array C "TextureValues" <;>
    simp [h1, h2, h4] at h ⊢
    intro ha
    omega
  · cases h1 : HasTypedField_Object C "RuntimeEntries[7]" <;>
    cases h2 : HasTypedField_Array (GetObjectField C "RuntimeEntries[7]") "ParameterInfoSet" <;>
    cases h4 : HasTypedField_Array C "StaticSwitchValues" <;>
    simp [h1, h2, h4] at h ⊢
    intro ha
    omega

theorem RunCategory_Remove_mismatched (E : Engine) (clamp : Nat) (cat other : Spec.Category)
    (C : FJsonObject) (st : SynthState) (h : cat.Mismatched C = true) :
    RunCategory E clamp other (cat.Remove C) st = RunCategory E clamp other C st := by
  by_cases ho : other = cat
  · subst ho
    rw [RunCategory_Remove_self, RunCategory_Mismatched E clamp other C st h]
  · rw [RunCategory_Remove_ne E clamp cat other C ho]

theorem ParamRecreation_eq_RunCategory (E : Engine) (clamp : Nat) (C : FJsonObject)
    (st : SynthState) :
    ParamRecreation E clamp C st
      = RunCategory E clamp .Switch C (RunCategory E clamp .Texture C
          (RunCategory E clamp .Vector C (RunCategory E clamp .Scalar C st))) := rfl

/-- Claim C3: for each of the four categories, when the category supplies its arrays and they
do not all have the same length, the code of that category leaves the state as it found it
(it adds no node), and the parameter-recreation region, hence the whole fallback graph, is
the one built from the snapshot with that category taken away. -/
theorem C3_mismatched_category_is_skipped (E : Engine) (cat : Spec.Category) (S : ImporterState)
    (Material : UMaterial) (hMismatched : cat.Mismatched S.CachedExpressionData = true) :
    (∀ (clamp : Nat) (st : SynthState), RunCategory E clamp cat S.CachedExpressionData st = st)
      ∧ (∀ (clamp : Nat) (st : SynthState),
          ParamRecreation E clamp S.CachedExpressionData st
            = ParamRecreation E clamp (cat.Remove S.CachedExpressionData) st)
      ∧ FallbackMaterial E S Material
          = FallbackMaterial E { S with CachedExpressionData := cat.Remove S.CachedExpressionData }
              Material := by
  have hP : ∀ (clamp : Nat) (st : SynthState),
      ParamRecreation E clamp S.CachedExpressionData st
        = ParamRecreation E clamp (cat.Remove S.CachedExpressionData) st := by
    intro clamp st
    simp only [ParamRecreation_eq_RunCategory,
      RunCategory_Remove_mismatched E clamp cat _ S.CachedExpressionData _ hMismatched]
  refine ⟨fun clamp st => RunCategory_Mismatched E clamp cat _ st hMismatched, hP, ?_⟩
  simp only [FallbackMaterial, FallbackGraph, SynthesizeFallback, hP]

/-- The theorem of claim C3 at a snapshot whose texture category has 3 descriptors and 2 raw
values next to the scalars of the worked example: the graph is the one built from the
scalars alone. -/
theorem C3_witness :
    Spec.Category.Mismatched .Texture
        ({ exampleState with CachedExpressionData := exampleMismatched } : ImporterState).CachedExpressionData
        = true
      ∧ ((∀ (clamp : Nat) (st : SynthState),
          RunCategory exampleEngine clamp .Texture
            ({ exampleState with CachedExpressionData := exampleMismatched } : ImporterState).CachedExpressionData
            st = st)
        ∧ (∀ (clamp : Nat) (st : SynthState),
          ParamRecreation exampleEngine clamp
              ({ exampleState with CachedExpressionData := exampleMismatched } : ImporterState).CachedExpressionData
              st
            = ParamRecreation exampleEngine clamp
                (Spec.Category.Remove .Texture
                  ({ exampleState with
                      CachedExpressionData := exampleMismatched } : ImporterState).CachedExpressionData)
                st)
        ∧ FallbackMaterial exampleEngine
              { exampleState with CachedExpressionData := exampleMismatched } exampleMaterial
            = FallbackMaterial exampleEngine
                { ({ exampleState with CachedExpressionData := exampleMismatched } : ImporterState) with
                  CachedExpressionData := Spec.Category.Remove .Texture
                    ({ exampleState with
                        CachedExpressionData := exampleMismatched } : ImporterState).CachedExpressionData }
                exampleMaterial)
      ∧ MergeLeaves (FallbackMaterial exampleEngine
            { exampleState with CachedExpressionData := exampleMismatched } exampleMaterial).Expressions
          = [some (Entry.scalar "A" 5), some (Entry.scalar "B" 5)] :=
  ⟨by decide,
   C3_mismatched_category_is_skipped exampleEngine .Texture
      { exampleState with CachedExpressionData := exampleMismatched } exampleMaterial (by decide),
   by decide⟩

/-- Claim C9 fails on the code at a full-graph document with one parameter group: with output
binding not skipped the group list of the result stays empty, because the field was removed
from the shared object before it is read; with output binding skipped the same document
yields the one record the claim describes. -/
theorem C9_parameter_groups_lost_when_connecting :
    (Import exampleEngine { bSkipResultNodeConnection := false } exampleGraphState
        (some exampleMaterial)).map (fun r => r.Material.ParameterGroupData) = some []
      ∧ (Import exampleEngine { bSkipResultNodeConnection := true } exampleGraphState
        (some exampleMaterial)).map (fun r => r.Material.ParameterGroupData)
          = some [{ GroupName := "G", GroupSortPriority := 1 }] := by
  decide

/-- Claim C10 fails on the code at a full-graph document whose first customized UV names a
registered node, with output binding not skipped: no element of `CustomizedUVs` is attached,
because the field was removed from the shared object before it is read.  The loop itself,
were it reached, would attach the entry at index 0, and would store past the end of the
fixed-size array at a ninth resolvable entry. -/
theorem C10_customized_uvs_never_attached :
    (Import exampleEngine { bSkipResultNodeConnection := false } exampleGraphState
        (some exampleMaterial)).map (fun r => r.Material.CustomizedUVs)
        = some (List.replicate NumCustomizedUVs {})
      ∧ CustomizedUVsLoop exampleEngine exampleGraphState.ExpressionContainer 0
          [exampleInput "Node0"] (List.replicate NumCustomizedUVs {})
        = some ({ Expression := some 0 } :: List.replicate 7 {})
      ∧ CustomizedUVsLoop exampleEngine exampleGraphState.ExpressionContainer 0
          (List.replicate 9 (exampleInput "Node0")) (List.replicate NumCustomizedUVs {})
        = none := by
  decide

/-- Claim C11: when the option `bSkipResultNodeConnection` is set and the registry is empty
after pass 1, `Import` builds nothing: the material handed to the creation hook is the
factory's material with its collection emptied and the shading models of the document, so
its collection holds no node of any kind (no aggregation node, no clamp, no leaf, no merge
node) and its root inputs are as the factory left them; what `Import` returns is that
material, passed through the generic property deserializer when the hook accepts it. -/
theorem C11_skipped_binding_builds_nothing (E : Engine) (S : ImporterState) (Material : UMaterial)
    (hEmpty : S.ExpressionContainer.length = 0) :
    ∃ r, Import E { bSkipResultNodeConnection := true } S (some Material) = some r
      ∧ MaterialAtCreation E { bSkipResultNodeConnection := true } S Material
          = some (ReadShadingModels E S.AssetData (ClearExpressions Material))
      ∧ (ReadShadingModels E S.AssetData (ClearExpressions Material)).Expressions = []
      ∧ (∀ p : UMaterialExpression → Bool,
          NodesWhere p (ReadShadingModels E S.AssetData (ClearExpressions Material)).Expressions = [])
      ∧ (∀ Property : EMaterialProperty,
          (ReadShadingModels E S.AssetData (ClearExpressions Material)).GetExpressionInputForProperty
              Property
            = Material.GetExpressionInputForProperty Property)
      ∧ r.Material
          = (if E.OnAssetCreation (ReadShadingModels E S.AssetData (ClearExpressions Material)) then
              E.DeserializeObjectProperties S.AssetData
                (ReadShadingModels E S.AssetData (ClearExpressions Material))
             else ReadShadingModels E S.AssetData (ClearExpressions Material)) := by
  obtain ⟨h1, _, _, h4, h5, h6, h7⟩ :=
    Expressions_ReadShadingModels E S.AssetData (ClearExpressions Material)
  have hE : (ReadShadingModels E S.AssetData (ClearExpressions Material)).Expressions = [] := by
    rw [h1]; rfl
  have hG : FallbackGraph E { bSkipResultNodeConnection := true } S (ClearExpressions Material)
      = (ReadShadingModels E S.AssetData (ClearExpressions Material),
          [Event.SpawnMaterialDataMissingNotification]) := by
    simp [FallbackGraph]
  refine ⟨FallbackPath E { bSkipResultNodeConnection := true } S (ClearExpressions Material),
    ?_, ?_, hE, ?_, ?_, ?_⟩
  · simp [Import, hEmpty]
  · simp [MaterialAtCreation, hEmpty, hG]
  · intro p
    rw [hE]; rfl
  · intro Property
    cases Property
    · exact h4
    · exact h5
    · exact h6
    · exact h7
  · unfold FallbackPath
    rw [hG]
    cases h : E.OnAssetCreation (ReadShadingModels E S.AssetData (ClearExpressions Material)) <;>
      simp [h]

/-- The theorem of claim C11 at the worked example (empty registry, example engine, whose
deserializer does nothing): the returned material holds no node and its BaseColor root input
has no producer, although the snapshot has two valid scalars. -/
theorem C11_witness :
    exampleState.ExpressionContainer.length = 0
    ∧ (∃ r, Import exampleEngine { bSkipResultNodeConnection := true } exampleState
          (some exampleMaterial) = some r
        ∧ MaterialAtCreation exampleEngine { bSkipResultNodeConnection := true } exampleState
            exampleMaterial
            = some (ReadShadingModels exampleEngine exampleState.AssetData
                (ClearExpressions exampleMaterial))
        ∧ (ReadShadingModels exampleEngine exampleState.AssetData
            (ClearExpressions exampleMaterial)).Expressions = []
        ∧ (∀ p : UMaterialExpression → Bool,
            NodesWhere p (ReadShadingModels exampleEngine exampleState.AssetData
              (ClearExpressions exampleMaterial)).Expressions = [])
        ∧ (∀ Property : EMaterialProperty,
            (ReadShadingModels exampleEngine exampleState.AssetData
                (ClearExpressions exampleMaterial)).GetExpressionInputForProperty Property
              = exampleMaterial.GetExpressionInputForProperty Property)
        ∧ r.Material
            = (if exampleEngine.OnAssetCreation (ReadShadingModels exampleEngine
                  exampleState.AssetData (ClearExpressions exampleMaterial)) then
                exampleEngine.DeserializeObjectProperties exampleState.AssetData
                  (ReadShadingModels exampleEngine exampleState.AssetData
                    (ClearExpressions exampleMaterial))
               else ReadShadingModels exampleEngine exampleState.AssetData
                  (ClearExpressions exampleMaterial)))
    ∧ (Import exampleEngine { bSkipResultNodeConnection := true } exampleState
          (some exampleMaterial)).map
            (fun r => (r.success, r.Material.Expressions, r.Material.BaseColor.Expression))
        = some (true, [], none)
    ∧ Spec.ValidEntries exampleEngine exampleState.CachedExpressionData
        = [Entry.scalar "A" 5, Entry.scalar "B" 5] :=
  ⟨rfl, C11_skipped_binding_builds_nothing exampleEngine exampleState exampleMaterial rfl,
   by decide, by decide⟩

end JsonAsAsset
